import Mathlib

/-!
Users API (`server.js`, `db.js`) and browser client (`script.js`).

A shallow embedding of the validation, routing and store-access logic of the
Express server and of the string helpers of the browser client.

JavaScript strings are modelled as lists of Unicode code points (`Str`); the
JavaScript `length` of a string counts UTF-16 code units and is modelled by
`jsLength`.  The fields `nome` and `email` of a request body are a string or
missing (`Option Str`); the handlers that read them are also given on fields of
any JSON type (`postUsuariosJs`, `putUsuarioJs`).  A handler is a function from
the host environment, the faults of the store, the store and the request to the
response, the store afterwards and the statements it sent to the store.  The
browser client is a view state (`Vista`) and its methods as functions on it.
-/

namespace UsuariosApi

/-! ## Strings -/

/-- A JavaScript string, as the list of its code points. -/
abbrev Str := List Char

/-- The `length` property of a JavaScript string: the number of UTF-16 code
units (a code point above U+FFFF takes two). -/
def jsLength : Str → Nat
  | [] => 0
  | c :: t => (if c.toNat < 0x10000 then 1 else 2) + jsLength t

/-- ECMAScript `WhiteSpace` and `LineTerminator` code points: the set removed by
`String.prototype.trim`, skipped by `parseInt`, and matched by `\s` in a regular
expression. -/
def isWhiteSpace (c : Char) : Bool :=
  let n := c.toNat
  n == 0x09 || n == 0x0A || n == 0x0B || n == 0x0C || n == 0x0D || n == 0x20 ||
  n == 0xA0 || n == 0x1680 || (0x2000 ≤ n && n ≤ 0x200A) || n == 0x2028 ||
  n == 0x2029 || n == 0x202F || n == 0x205F || n == 0x3000 || n == 0xFEFF

/-- `String.prototype.trim`: drops leading and trailing white space. -/
def trim (s : Str) : Str :=
  (s.dropWhile isWhiteSpace).rdropWhile isWhiteSpace

/-! ## Regular expressions

The fragment of regular expressions used by `emailRegex`, matched with
Brzozowski derivatives. -/

/-- Regular expressions over code points, with character classes given by a
predicate. -/
inductive Regex where
  | nada : Regex
  | vazio : Regex
  | classe (p : Char → Bool) : Regex
  | ou (r s : Regex) : Regex
  | seq (r s : Regex) : Regex
  | estrela (r : Regex) : Regex

namespace Regex

/-- One or more repetitions, `r+`. -/
def mais (r : Regex) : Regex := seq r (estrela r)

/-- A single literal character. -/
def lit (c : Char) : Regex := classe (fun x => x == c)

/-- Whether the expression matches the empty string. -/
def anulavel : Regex → Bool
  | nada => false
  | vazio => true
  | classe _ => false
  | ou r s => anulavel r || anulavel s
  | seq r s => anulavel r && anulavel s
  | estrela _ => true

/-- Derivative of the expression by one character. -/
def deriv (c : Char) : Regex → Regex
  | nada => nada
  | vazio => nada
  | classe p => if p c then vazio else nada
  | ou r s => ou (deriv c r) (deriv c s)
  | seq r s => if anulavel r then ou (seq (deriv c r) s) (deriv c s) else seq (deriv c r) s
  | estrela r => seq (deriv c r) (estrela r)

/-- Whole-string match (the expression is anchored with `^` and `$`). -/
def test : Regex → Str → Bool
  | r, [] => anulavel r
  | r, c :: t => test (deriv c r) t

/-- The strings denoted by an expression. -/
def Lang : Regex → Str → Prop
  | nada, _ => False
  | vazio, s => s = []
  | classe p, s => ∃ c, s = [c] ∧ p c = true
  | ou r t, s => Lang r s ∨ Lang t s
  | seq r t, s => ∃ u v, s = u ++ v ∧ Lang r u ∧ Lang t v
  | estrela r, s => ∃ L : List Str, s = L.flatten ∧ ∀ u ∈ L, Lang r u

end Regex

/-! ## Server-side validation (`server.js`, lines 27-44) -/

/-- The class `[^\s@]`. -/
def naoEspacoNemArroba (c : Char) : Bool := !(isWhiteSpace c) && !(c == '@')

/-- `emailRegex = /^[^\s@]+@[^\s@]+\.[^\s@]+$/`. -/
def emailRegex : Regex :=
  .seq (.mais (.classe naoEspacoNemArroba))
    (.seq (.lit '@')
      (.seq (.mais (.classe naoEspacoNemArroba))
        (.seq (.lit '.') (.mais (.classe naoEspacoNemArroba)))))

/-- `validarEmail(email)`: `emailRegex.test(email)`. -/
def validarEmail (email : Str) : Bool := emailRegex.test email

/-- JavaScript truthiness of a string-or-missing value: `undefined`, `null` and
the empty string are falsy. -/
def truthy : Option Str → Bool
  | none => false
  | some [] => false
  | some (_ :: _) => true

def erroNome : Str := "Nome deve ter pelo menos 2 caracteres".toList
def erroEmail : Str := "Email deve ser válido".toList

/-- `validarUsuario(nome, email)`.  A missing argument (`undefined` or `null`)
is `none`. -/
def validarUsuario (nome email : Option Str) : List Str :=
  let errors : List Str := []
  let errors :=
    if !(truthy nome) || jsLength (trim (nome.getD [])) < 2 then errors ++ [erroNome] else errors
  let errors :=
    if !(truthy email) || !(validarEmail (email.getD [])) then errors ++ [erroEmail] else errors
  errors

/-! ## `parseInt` and decimal notation -/

/-- Value of a digit character in any radix up to 36. -/
def valorDigito (c : Char) : Option Nat :=
  let n := c.toNat
  if 48 ≤ n ∧ n ≤ 57 then some (n - 48)
  else if 97 ≤ n ∧ n ≤ 122 then some (n - 97 + 10)
  else if 65 ≤ n ∧ n ≤ 90 then some (n - 65 + 10)
  else none

/-- Whether the character is a digit of the given radix. -/
def ehDigito (radix : Nat) (c : Char) : Bool :=
  match valorDigito c with
  | some d => d < radix
  | none => false

/-- Splits an optional leading sign off the string. -/
def tiraSinal (s : Str) : Int × Str :=
  match s with
  | c :: t => if c = '-' then (-1, t) else if c = '+' then (1, t) else (1, s)
  | [] => (1, s)

/-- Splits an optional `0x` / `0X` off the string and selects the radix. -/
def tiraHex (s : Str) : Nat × Str :=
  match s with
  | c1 :: c2 :: t => if c1 = '0' ∧ (c2 = 'x' ∨ c2 = 'X') then (16, t) else (10, s)
  | _ => (10, s)

/-- Value of a run of digits in the given radix. -/
def valorDigitos (radix : Nat) (ds : Str) : Nat :=
  ds.foldl (fun acc c => acc * radix + (valorDigito c).getD 0) 0

/-- `parseInt(s)` with no radix argument, as the mathematical integer of the
digit run; `none` is `NaN`.  JavaScript returns the nearest double: the two are
the same number when the value is at most 2^53, which covers every id of the
`INT` column of `db.js` (below 2^31).  Beyond 2^53 the rounding, and `Infinity`
for the longest runs, are not represented; they change neither `isNaN(id)` nor
`id <= 0`, only the id that is looked up. -/
def parseInt (s : Str) : Option Int :=
  let s1 := s.dropWhile isWhiteSpace
  let (sinal, s2) := tiraSinal s1
  let (radix, s3) := tiraHex s2
  let ds := s3.takeWhile (ehDigito radix)
  if ds = [] then none else some (sinal * (valorDigitos radix ds : Nat))

/-- Digits of `n`, most significant first, in front of `acc`. -/
def digitosAux : Nat → Nat → Str → Str
  | 0, _, acc => acc
  | fuel + 1, n, acc =>
    if n / 10 = 0 then Char.ofNat (48 + n % 10) :: acc
    else digitosAux fuel (n / 10) (Char.ofNat (48 + n % 10) :: acc)

/-- Decimal notation of a natural number, as produced by `String(n)` and by
template-literal interpolation of an integer id (below 10^21, where JavaScript
switches to exponent notation). -/
def decimal (n : Nat) : Str := digitosAux (n + 1) n []

/-! ## The store (`db.js`: table `usuarios`)

The five SQL statements that `server.js` sends through `pool.query`, read on
the table declared by the `CREATE TABLE` of `db.js`.  Each takes the fault, if
any, that `pool.query` throws instead of answering (connection lost, time-out,
...); the `UNIQUE` constraint on `email` compares the stored strings. -/

/-- A row of table `usuarios`. -/
structure Usuario where
  id : Nat
  nome : Str
  email : Str
  created_at : Nat
  updated_at : Nat
  deriving DecidableEq

/-- The table: its rows and the next `AUTO_INCREMENT` value. -/
structure Db where
  rows : List Usuario
  autoInc : Nat
  deriving DecidableEq

/-- An error thrown by `pool.query`. -/
structure DbError where
  code : Str
  message : Str
  deriving DecidableEq

/-- The statements sent through `pool.query`. -/
inductive Query
  | selectAll
  | selectPorId (id : Int)
  | insert (nome email : Str)
  | update (nome email : Str) (id : Int)
  | delete (id : Int)
  deriving DecidableEq

/-- Integrity constraints of the table: `AUTO_INCREMENT` starts at 1, `id` is a
positive primary key below the next `AUTO_INCREMENT` value and `email` is
`UNIQUE`. -/
def Db.wf (db : Db) : Prop :=
  1 ≤ db.autoInc ∧ (∀ u ∈ db.rows, 1 ≤ u.id ∧ u.id < db.autoInc) ∧
  (db.rows.map (fun u => u.id)).Nodup ∧ (db.rows.map (fun u => u.email)).Nodup

instance (db : Db) : Decidable db.wf := by
  unfold Db.wf; infer_instance

def erDupEntry : Str := "ER_DUP_ENTRY".toList

/-- The error raised by the `UNIQUE` constraint on `email`. -/
def erroDuplicado (email : Str) : DbError :=
  ⟨erDupEntry, "Duplicate entry ".toList ++ email ++ " for key usuarios.email".toList⟩

/-- `SELECT * FROM usuarios ORDER BY id DESC`. -/
def selectAll (falha : Option DbError) (db : Db) : Except DbError (List Usuario) :=
  match falha with
  | some e => .error e
  | none => .ok (db.rows.insertionSort (fun a b => b.id ≤ a.id))

/-- `SELECT * FROM usuarios WHERE id = ?`. -/
def selectPorId (falha : Option DbError) (db : Db) (id : Int) : Except DbError (List Usuario) :=
  match falha with
  | some e => .error e
  | none => .ok (db.rows.filter (fun u => (u.id : Int) = id))

/-- `INSERT INTO usuarios (nome, email) VALUES (?, ?)`; returns `insertId`. -/
def insert (falha : Option DbError) (agora : Nat) (db : Db) (nome email : Str) :
    Except DbError (Nat × Db) :=
  match falha with
  | some e => .error e
  | none =>
    if db.rows.any (fun u => u.email = email) then .error (erroDuplicado email)
    else .ok (db.autoInc,
      ⟨db.rows ++ [⟨db.autoInc, nome, email, agora, agora⟩], db.autoInc + 1⟩)

/-- `UPDATE usuarios SET nome = ?, email = ? WHERE id = ?`. -/
def update (falha : Option DbError) (agora : Nat) (db : Db) (nome email : Str) (id : Int) :
    Except DbError Db :=
  match falha with
  | some e => .error e
  | none =>
    if db.rows.any (fun u => (u.id : Int) = id) ∧
        db.rows.any (fun u => u.email = email ∧ (u.id : Int) ≠ id) then
      .error (erroDuplicado email)
    else .ok ⟨db.rows.map (fun u =>
      if (u.id : Int) = id ∧ ¬ (u.nome = nome ∧ u.email = email) then
        ⟨u.id, nome, email, u.created_at, agora⟩ else u), db.autoInc⟩

/-- `DELETE FROM usuarios WHERE id = ?`. -/
def delete (falha : Option DbError) (db : Db) (id : Int) : Except DbError Db :=
  match falha with
  | some e => .error e
  | none => .ok ⟨db.rows.filter (fun u => (u.id : Int) ≠ id), db.autoInc⟩

/-! ## HTTP layer (`server.js`) -/

/-- What the handlers read from the host: `process.env.NODE_ENV`, the store
clock, `new Date().toISOString()`, `process.uptime().toFixed(2)` and the
built-in `String.prototype.toLowerCase`. -/
structure Amb where
  nodeEnv : Option Str
  agora : Nat
  dataISO : Str
  uptime : Str
  toLowerCase : Str → Str

/-- Values of the fields of a response body. -/
inductive Valor
  | bool (b : Bool)
  | num (n : Int)
  | texto (s : Str)
  | textos (l : List Str)
  | usuario (u : Usuario)
  | usuarios (l : List Usuario)
  | novo (id : Int) (nome email : Str)
  | rotas (l : List (String × Str))
  deriving DecidableEq

/-- A JSON object: its fields in source order. -/
abbrev Corpo := List (String × Valor)

/-- A response: status code and JSON body. -/
structure Resposta where
  status : Nat
  body : Corpo
  deriving DecidableEq

/-- Outcome of handling one request: the response, the store afterwards and the
statements issued through `pool.query`, in order. -/
structure Saida where
  res : Resposta
  db : Db
  consultas : List Query
  deriving DecidableEq

/-- The field of a body with the given key, if present. -/
def campo (k : String) (b : Corpo) : Option Valor := b.lookup k

/-- The body carries a boolean field `success` and a string field `message`. -/
def ehEnvelope (b : Corpo) : Bool :=
  match campo "success" b, campo "message" b with
  | some (.bool _), some (.texto _) => true
  | _, _ => false

/-- The body carries a string field `message`. -/
def temMensagem (b : Corpo) : Bool :=
  match campo "message" b with
  | some (.texto _) => true
  | _ => false

/-- `process.env.NODE_ENV || 'development'`. -/
def ambienteOuPadrao (env : Amb) : Str :=
  match env.nodeEnv with
  | some (c :: t) => c :: t
  | _ => "development".toList

/-- The body of the `500` answers of the route handlers. -/
def corpoErroInterno (e : DbError) : Corpo :=
  [("success", .bool false), ("message", .texto "Erro interno do servidor".toList),
   ("error", .texto e.message)]

/-- The body of the `400` answer to an invalid `:id`. -/
def corpoIdInvalido : Corpo :=
  [("success", .bool false), ("message", .texto "ID deve ser um número válido".toList)]

/-- The body of the `404` answer to an unknown `:id`. -/
def corpoNaoEncontrado : Corpo :=
  [("success", .bool false), ("message", .texto "Usuário não encontrado".toList)]

/-- The body of the `400` answer to a payload that fails validation. -/
def corpoDadosInvalidos (errors : List Str) : Corpo :=
  [("success", .bool false), ("message", .texto "Dados inválidos".toList),
   ("errors", .textos errors)]

/-- `app.get('/health')`; `dbStatus` is the outcome of `await testConnection()`
(a thrown error is `.error` with its message). -/
def getHealth (env : Amb) (dbStatus : Except Str Bool) : Resposta :=
  match dbStatus with
  | .ok st =>
    ⟨200, [("status", .texto "OK".toList), ("message", .texto "API está funcionando".toList),
      ("database", .texto (if st then "Conectado".toList else "Desconectado".toList)),
      ("timestamp", .texto env.dataISO), ("uptime", .texto (env.uptime ++ "s".toList)),
      ("environment", .texto (ambienteOuPadrao env))]⟩
  | .error m =>
    ⟨503, [("status", .texto "ERROR".toList), ("message", .texto "Problema na API".toList),
      ("error", .texto m)]⟩

/-- `app.get('/usuarios')`. -/
def getUsuarios (env : Amb) (falhas : Nat → Option DbError) (db : Db) : Saida :=
  match selectAll (falhas 0) db with
  | .ok results =>
    ⟨⟨200, [("success", .bool true),
        ("message", .texto "Lista de usuários recuperada com sucesso".toList),
        ("data", .usuarios results), ("total", .num results.length),
        ("timestamp", .texto env.dataISO)]⟩, db, [.selectAll]⟩
  | .error e => ⟨⟨500, corpoErroInterno e⟩, db, [.selectAll]⟩

/-- `app.get('/usuarios/:id')`. -/
def getUsuarioPorId (falhas : Nat → Option DbError) (db : Db) (idParam : Str) : Saida :=
  match parseInt idParam with
  | none => ⟨⟨400, corpoIdInvalido⟩, db, []⟩
  | some id =>
    if id ≤ 0 then ⟨⟨400, corpoIdInvalido⟩, db, []⟩
    else
      match selectPorId (falhas 0) db id with
      | .ok [] => ⟨⟨404, corpoNaoEncontrado⟩, db, [.selectPorId id]⟩
      | .ok (u :: _) =>
        ⟨⟨200, [("success", .bool true),
            ("message", .texto "Usuário encontrado com sucesso".toList),
            ("data", .usuario u)]⟩, db, [.selectPorId id]⟩
      | .error e => ⟨⟨500, corpoErroInterno e⟩, db, [.selectPorId id]⟩

/-- `app.post('/usuarios')`. -/
def postUsuarios (env : Amb) (falhas : Nat → Option DbError) (db : Db)
    (nome email : Option Str) : Saida :=
  let errors := validarUsuario nome email
  if errors.length > 0 then ⟨⟨400, corpoDadosInvalidos errors⟩, db, []⟩
  else
    let n := trim (nome.getD [])
    let e := env.toLowerCase (trim (email.getD []))
    match insert (falhas 0) env.agora db n e with
    | .ok (insertId, db1) =>
      ⟨⟨201, [("success", .bool true), ("message", .texto "Usuário criado com sucesso".toList),
          ("data", .novo insertId n e)]⟩, db1, [.insert n e]⟩
    | .error err =>
      if err.code = erDupEntry then
        ⟨⟨409, [("success", .bool false), ("message", .texto "Email já cadastrado".toList)]⟩,
          db, [.insert n e]⟩
      else ⟨⟨500, corpoErroInterno err⟩, db, [.insert n e]⟩

/-- The `catch` block of `app.put('/usuarios/:id')`. -/
def putCatch (err : DbError) : Resposta :=
  if err.code = erDupEntry then
    ⟨409, [("success", .bool false),
      ("message", .texto "Email já está em uso por outro usuário".toList)]⟩
  else ⟨500, corpoErroInterno err⟩

/-- `app.put('/usuarios/:id')`. -/
def putUsuario (env : Amb) (falhas : Nat → Option DbError) (db : Db) (idParam : Str)
    (nome email : Option Str) : Saida :=
  match parseInt idParam with
  | none => ⟨⟨400, corpoIdInvalido⟩, db, []⟩
  | some id =>
    if id ≤ 0 then ⟨⟨400, corpoIdInvalido⟩, db, []⟩
    else
      let errors := validarUsuario nome email
      if errors.length > 0 then ⟨⟨400, corpoDadosInvalidos errors⟩, db, []⟩
      else
        match selectPorId (falhas 0) db id with
        | .error err => ⟨putCatch err, db, [.selectPorId id]⟩
        | .ok [] => ⟨⟨404, corpoNaoEncontrado⟩, db, [.selectPorId id]⟩
        | .ok (_ :: _) =>
          let n := trim (nome.getD [])
          let e := env.toLowerCase (trim (email.getD []))
          match update (falhas 1) env.agora db n e id with
          | .error err => ⟨putCatch err, db, [.selectPorId id, .update n e id]⟩
          | .ok db1 =>
            ⟨⟨200, [("success", .bool true),
                ("message", .texto "Usuário atualizado com sucesso".toList),
                ("data", .novo id n e)]⟩, db1, [.selectPorId id, .update n e id]⟩

/-- `app.delete('/usuarios/:id')`. -/
def deleteUsuario (falhas : Nat → Option DbError) (db : Db) (idParam : Str) : Saida :=
  match parseInt idParam with
  | none => ⟨⟨400, corpoIdInvalido⟩, db, []⟩
  | some id =>
    if id ≤ 0 then ⟨⟨400, corpoIdInvalido⟩, db, []⟩
    else
      match selectPorId (falhas 0) db id with
      | .error err => ⟨⟨500, corpoErroInterno err⟩, db, [.selectPorId id]⟩
      | .ok [] => ⟨⟨404, corpoNaoEncontrado⟩, db, [.selectPorId id]⟩
      | .ok (u :: _) =>
        match delete (falhas 1) db id with
        | .error err => ⟨⟨500, corpoErroInterno err⟩, db, [.selectPorId id, .delete id]⟩
        | .ok db1 =>
          ⟨⟨200, [("success", .bool true),
              ("message", .texto "Usuário removido com sucesso".toList),
              ("data", .usuario u)]⟩, db1, [.selectPorId id, .delete id]⟩

/-- `app.get('/')`. -/
def getRaiz (env : Amb) : Resposta :=
  ⟨200, [("message", .texto "🚀 API RESTful de Usuários - Node.js + Express + MySQL".toList),
    ("version", .texto "2.0.0".toList), ("timestamp", .texto env.dataISO),
    ("endpoints", .rotas [("health", "/health".toList), ("listUsers", "GET /usuarios".toList),
      ("getUser", "GET /usuarios/:id".toList), ("createUser", "POST /usuarios".toList),
      ("updateUser", "PUT /usuarios/:id".toList), ("deleteUser", "DELETE /usuarios/:id".toList)]),
    ("documentation", .texto "Acesse /index.html para interface web".toList)]⟩

/-- `app.use('*', ...)`: routes that match nothing above. -/
def rotaNaoEncontrada (originalUrl : Str) : Resposta :=
  ⟨404, [("success", .bool false), ("message", .texto "Rota não encontrada".toList),
    ("path", .texto originalUrl)]⟩

/-- The error-handling middleware `app.use((error, req, res, next) => ...)`. -/
def erroMiddleware (env : Amb) (errorMessage : Str) : Resposta :=
  ⟨500, [("success", .bool false), ("message", .texto "Erro interno do servidor".toList),
    ("error", .texto (if env.nodeEnv = some "development".toList then errorMessage
      else "Algo deu errado".toList))]⟩

/-- A request, after routing: one constructor for each route of `server.js`, and
`erro` for an error handed to the error-handling middleware. -/
inductive Pedido
  | health (dbStatus : Except Str Bool)
  | listar
  | buscar (idParam : Str)
  | criar (nome email : Option Str)
  | atualizar (idParam : Str) (nome email : Option Str)
  | remover (idParam : Str)
  | raiz
  | outra (originalUrl : Str)
  | erro (errorMessage : Str)

/-- The application: dispatches a request to its handler. -/
def app (env : Amb) (falhas : Nat → Option DbError) (db : Db) : Pedido → Saida
  | .health dbStatus => ⟨getHealth env dbStatus, db, []⟩
  | .listar => getUsuarios env falhas db
  | .buscar idParam => getUsuarioPorId falhas db idParam
  | .criar nome email => postUsuarios env falhas db nome email
  | .atualizar idParam nome email => putUsuario env falhas db idParam nome email
  | .remover idParam => deleteUsuario falhas db idParam
  | .raiz => ⟨getRaiz env, db, []⟩
  | .outra originalUrl => ⟨rotaNaoEncontrada originalUrl, db, []⟩
  | .erro errorMessage => ⟨erroMiddleware env errorMessage, db, []⟩

/-- The routes whose body describes the service instead of answering about
users: `/health` and `/`. -/
def rotaInformativa : Pedido → Bool
  | .health _ => true
  | .raiz => true
  | _ => false

/-- No store fault on any query of the request. -/
def semFalhas : Nat → Option DbError := fun _ => none

/-! ## Browser client (`script.js`) -/

/-- `s.replace(/c/g, rep)` for a single-character pattern `c`. -/
def replaceAll (c : Char) (rep : Str) (s : Str) : Str :=
  (s.map (fun x => if x = c then rep else [x])).flatten

def aspas : Char := Char.ofNat 34
def apostrofo : Char := Char.ofNat 39

/-- `UserManager.escapeHtml`: five replacements in sequence. -/
def escapeHtml (s : Str) : Str :=
  replaceAll apostrofo "&#039;".toList
    (replaceAll aspas "&quot;".toList
      (replaceAll '>' "&gt;".toList
        (replaceAll '<' "&lt;".toList
          (replaceAll '&' "&amp;".toList s))))

/-- The character-by-character map the five replacements are meant to compute. -/
def escapeChar (c : Char) : Str :=
  if c = '&' then "&amp;".toList
  else if c = '<' then "&lt;".toList
  else if c = '>' then "&gt;".toList
  else if c = aspas then "&quot;".toList
  else if c = apostrofo then "&#039;".toList
  else [c]

/-- The five entities produced by `escapeHtml`. -/
def entidades : List Str :=
  ["&amp;".toList, "&lt;".toList, "&gt;".toList, "&quot;".toList, "&#039;".toList]

/-! ## Concrete host and stores used in the examples -/

/-- `toLowerCase` on ASCII letters (all other code points unchanged): agrees
with the host function on ASCII strings. -/
def lowerAscii (s : Str) : Str :=
  s.map (fun c => if 65 ≤ c.toNat ∧ c.toNat ≤ 90 then Char.ofNat (c.toNat + 32) else c)

def ambProducao : Amb :=
  ⟨some "production".toList, 1000, "2024-01-01T00:00:00.000Z".toList, "12.34".toList, lowerAscii⟩

def ambDesenvolvimento : Amb :=
  ⟨some "development".toList, 1000, "2024-01-01T00:00:00.000Z".toList, "12.34".toList, lowerAscii⟩

def dbVazio : Db := ⟨[], 1⟩

def dbAna : Db := ⟨[⟨1, "Ana".toList, "ana@x.com".toList, 900, 900⟩], 2⟩

def falhaConexao : DbError :=
  ⟨"ECONNREFUSED".toList, "connect ECONNREFUSED 127.0.0.1:3307".toList⟩

def falhaTabela : DbError :=
  ⟨"ER_NO_SUCH_TABLE".toList, "Table api_usuarios.usuarios does not exist".toList⟩

/-! ## Specification-side predicates -/

/-- The pattern `local@domain.tld`: a non-empty local part, `@`, a non-empty
domain, a dot and a non-empty rest, none of them containing white space or `@`. -/
def PadraoEmail (s : Str) : Prop :=
  ∃ l d t : Str, s = l ++ ['@'] ++ d ++ ['.'] ++ t ∧ l ≠ [] ∧ d ≠ [] ∧ t ≠ [] ∧
    ∀ c ∈ l ++ d ++ t, isWhiteSpace c = false ∧ c ≠ '@'

/-- A decimal digit character. -/
def EhDecimal (c : Char) : Prop := 48 ≤ c.toNat ∧ c.toNat ≤ 57

/-! ## Request bodies with values of any JSON type (`server.js`)

The handlers destructure `nome` and `email` from the parsed body, so each is
`undefined` (`none`) or a JSON value. -/

/-- A JSON value, as `express.json()` parses it; numbers are the integer-valued
ones (a fractional number is truthy and prints without `@`, like a non-zero
integer). -/
inductive Json where
  | nulo
  | bool (b : Bool)
  | num (n : Int)
  | str (s : Str)
  | arr (l : List Json)
  | obj (l : List (Str × Json))

/-- `const { nome, email } = req.body`: the own property of the body with that
key (the last one, if the key is repeated); `undefined` for an array body. -/
def campoDe (k : Str) : Json → Option Json
  | .obj l => (l.reverse.find? (fun kv => kv.1 = k)).map (fun kv => kv.2)
  | _ => none

/-- `String(n)` for an integer-valued number. -/
def textoDeInt (n : Int) : Str :=
  if n < 0 then '-' :: decimal n.natAbs else decimal n.toNat

def erroPrimitivo : Str := "Cannot convert object to primitive value".toList

mutual
/-- `ToString(v)`, applied by `RegExp.prototype.test` to its argument; `.error`
is a thrown `TypeError` with that message.  An object with an own property
`toString` (never callable in JSON) has no primitive value. -/
def paraTexto : Json → Except Str Str
  | .nulo => .ok "null".toList
  | .bool b => .ok (if b then "true".toList else "false".toList)
  | .num n => .ok (textoDeInt n)
  | .str s => .ok s
  | .arr l => juntar l
  | .obj l =>
    if l.any (fun kv => kv.1 = "toString".toList) then .error erroPrimitivo
    else .ok "[object Object]".toList
termination_by structural j => j
/-- `Array.prototype.join()`: the elements' strings separated by commas, `null`
printing as the empty string. -/
def juntar : List Json → Except Str Str
  | [] => .ok []
  | x :: t =>
    match (match x with | Json.nulo => Except.ok [] | _ => paraTexto x), juntar t with
    | .ok a, .ok b => .ok (if t.isEmpty then a else a ++ ',' :: b)
    | .error e, _ => .error e
    | _, .error e => .error e
termination_by structural l => l
end

/-- JavaScript truthiness of a JSON value or `undefined`. -/
def truthyJs : Option Json → Bool
  | none => false
  | some .nulo => false
  | some (.bool b) => b
  | some (.num n) => n != 0
  | some (.str s) => !s.isEmpty
  | some (.arr _) => true
  | some (.obj _) => true

/-- `x.trim()` where `x` is the variable named `var`; `.error` is the thrown
`TypeError` with that message. -/
def chamarTrim (var : Str) : Option Json → Except Str Str
  | some (.str s) => .ok (trim s)
  | none => .error "Cannot read properties of undefined (reading 'trim')".toList
  | some .nulo => .error "Cannot read properties of null (reading 'trim')".toList
  | some _ => .error (var ++ ".trim is not a function".toList)

/-- `validarEmail(email)`: `emailRegex.test(email)` on any value. -/
def validarEmailJs : Option Json → Except Str Bool
  | none => .ok (emailRegex.test "undefined".toList)
  | some j =>
    match paraTexto j with
    | .ok s => .ok (emailRegex.test s)
    | .error m => .error m

/-- `validarUsuario(nome, email)` on values of any JSON type; `.error` is an
exception thrown out of the function. -/
def validarUsuarioJs (nome email : Option Json) : Except Str (List Str) :=
  let errors : List Str := []
  match (if !(truthyJs nome) then Except.ok true
      else match chamarTrim "nome".toList nome with
        | .ok t => Except.ok (decide (jsLength t < 2))
        | .error m => Except.error m) with
  | .error m => .error m
  | .ok nomeRuim =>
    let errors := if nomeRuim then errors ++ [erroNome] else errors
    match (if !(truthyJs email) then Except.ok true
        else match validarEmailJs email with
          | .ok b => Except.ok (!b)
          | .error m => Except.error m) with
    | .error m => .error m
    | .ok emailRuim => .ok (if emailRuim then errors ++ [erroEmail] else errors)

/-- How an `async` handler ends: it sent a response, or its promise was
rejected by an exception thrown outside its `try` block, before any response
and any store access. -/
inductive Desfecho
  | respondeu (s : Saida)
  | rejeitou (mensagem : Str)
  deriving DecidableEq

/-- `app.post('/usuarios')` on a body with fields of any JSON type. -/
def postUsuariosJs (env : Amb) (falhas : Nat → Option DbError) (db : Db)
    (nome email : Option Json) : Desfecho :=
  match validarUsuarioJs nome email with
  | .error m => .rejeitou m
  | .ok errors =>
    if errors.length > 0 then .respondeu ⟨⟨400, corpoDadosInvalidos errors⟩, db, []⟩
    else
      match chamarTrim "nome".toList nome, chamarTrim "email".toList email with
      | .error m, _ => .respondeu ⟨⟨500, corpoErroInterno ⟨[], m⟩⟩, db, []⟩
      | .ok _, .error m => .respondeu ⟨⟨500, corpoErroInterno ⟨[], m⟩⟩, db, []⟩
      | .ok n, .ok e0 =>
        let e := env.toLowerCase e0
        match insert (falhas 0) env.agora db n e with
        | .ok (insertId, db1) =>
          .respondeu ⟨⟨201, [("success", .bool true),
              ("message", .texto "Usuário criado com sucesso".toList),
              ("data", .novo insertId n e)]⟩, db1, [.insert n e]⟩
        | .error err =>
          if err.code = erDupEntry then
            .respondeu ⟨⟨409, [("success", .bool false),
                ("message", .texto "Email já cadastrado".toList)]⟩, db, [.insert n e]⟩
          else .respondeu ⟨⟨500, corpoErroInterno err⟩, db, [.insert n e]⟩

/-- `app.put('/usuarios/:id')` on a body with fields of any JSON type. -/
def putUsuarioJs (env : Amb) (falhas : Nat → Option DbError) (db : Db) (idParam : Str)
    (nome email : Option Json) : Desfecho :=
  match parseInt idParam with
  | none => .respondeu ⟨⟨400, corpoIdInvalido⟩, db, []⟩
  | some id =>
    if id ≤ 0 then .respondeu ⟨⟨400, corpoIdInvalido⟩, db, []⟩
    else
      match validarUsuarioJs nome email with
      | .error m => .rejeitou m
      | .ok errors =>
        if errors.length > 0 then .respondeu ⟨⟨400, corpoDadosInvalidos errors⟩, db, []⟩
        else
          match selectPorId (falhas 0) db id with
          | .error err => .respondeu ⟨putCatch err, db, [.selectPorId id]⟩
          | .ok [] => .respondeu ⟨⟨404, corpoNaoEncontrado⟩, db, [.selectPorId id]⟩
          | .ok (_ :: _) =>
            match chamarTrim "nome".toList nome, chamarTrim "email".toList email with
            | .error m, _ => .respondeu ⟨putCatch ⟨[], m⟩, db, [.selectPorId id]⟩
            | .ok _, .error m => .respondeu ⟨putCatch ⟨[], m⟩, db, [.selectPorId id]⟩
            | .ok n, .ok e0 =>
              let e := env.toLowerCase e0
              match update (falhas 1) env.agora db n e id with
              | .error err => .respondeu ⟨putCatch err, db, [.selectPorId id, .update n e id]⟩
              | .ok db1 =>
                .respondeu ⟨⟨200, [("success", .bool true),
                    ("message", .texto "Usuário atualizado com sucesso".toList),
                    ("data", .novo id n e)]⟩, db1, [.selectPorId id, .update n e id]⟩

/-- A string-or-missing field as a JSON value or `undefined`. -/
def comoJson : Option Str → Option Json
  | none => none
  | some s => some (.str s)

/-- The status of the response, if the handler sent one. -/
def Desfecho.status : Desfecho → Option Nat
  | .respondeu s => some s.res.status
  | .rejeitou _ => none

/-! ## View state of the browser client (`script.js`, class `UserManager`)

The fields of `UserManager` and the properties of the DOM elements that its
methods read or write.  An `async` method takes the outcome of its `fetch` as
an argument and is run to its end; the requests it sends are appended to
`pedidos`.  Of `loadUsers` only the start (the loading indicator and the
request) is recorded. -/

/-- A request sent with `fetch`: method, URL and the JSON body `{ nome, email }`
if there is one. -/
structure PedidoHttp where
  metodo : Str
  url : Str
  corpo : Option (Str × Str)
  deriving DecidableEq

/-- Outcome of `await fetch(...)` followed by `await response.json()`: an
exception with its message, or `response.ok`, `response.status`, the
truthiness of `result.success` and `result.message` when it is a non-empty
string. -/
inductive Fetch
  | lancou (mensagem : Str)
  | resposta (ok : Bool) (status : Nat) (success : Bool) (message : Option Str)
  deriving DecidableEq

/-- The view state. -/
structure Vista where
  isEditing : Bool
  currentUserId : Option Nat
  pendingDeleteId : Option Nat
  userIdInput : Str
  nomeInput : Str
  emailInput : Str
  nomeError : Str
  emailError : Str
  nomeInputError : Bool
  emailInputError : Bool
  messageText : Str
  messageClass : Str
  messageDisplay : Str
  btnSubmitHtml : Str
  btnCancelDisplay : Str
  loadingDisplay : Str
  modalDisplay : Str
  bodyOverflow : Str
  confirmMessage : Str
  timeouts : Nat
  pedidos : List PedidoHttp
  deriving DecidableEq

/-- The two form fields that `showError(field, message)` is called with. -/
inductive CampoForm
  | nome
  | email
  deriving DecidableEq

def apiUrl : Str := "http://localhost:3001".toList

/-- `s.includes(sub)`. -/
def inclui (sub : Str) : Str → Bool
  | [] => sub.isEmpty
  | c :: t => sub.isPrefixOf (c :: t) || inclui sub t

/-- `showMessage(message, type)`; a `success` message schedules `hideMessage`
after 5 seconds (one more pending timer). -/
def showMessage (message type : Str) (v : Vista) : Vista :=
  let v := { v with messageText := message, messageClass := "message ".toList ++ type }
  if type = "success".toList then { v with timeouts := v.timeouts + 1 } else v

/-- `hideMessage()`. -/
def hideMessage (v : Vista) : Vista := { v with messageDisplay := "none".toList }

/-- The banner is visible: its `style.display` is not `none`. -/
def bannerVisivel (v : Vista) : Bool := v.messageDisplay != "none".toList

/-- `clearErrors()`. -/
def clearErrors (v : Vista) : Vista :=
  { v with nomeError := [], emailError := [], nomeInputError := false, emailInputError := false }

/-- `showError(field, message)`. -/
def showError (field : CampoForm) (message : Str) (v : Vista) : Vista :=
  match field with
  | .nome => { v with nomeError := message, nomeInputError := true }
  | .email => { v with emailError := message, emailInputError := true }

/-- `showLoading(show)`. -/
def showLoading (show_ : Bool) (v : Vista) : Vista :=
  { v with loadingDisplay := if show_ then "flex".toList else "none".toList }

/-- The start of `loadUsers()`, up to its first `await`. -/
def loadUsersInicio (v : Vista) : Vista :=
  let v := showLoading true v
  { v with pedidos := v.pedidos ++ [⟨"GET".toList, apiUrl ++ "/usuarios".toList, none⟩] }

/-- `clearForm()`; `userForm.reset()` empties the two inputs. -/
def clearForm (v : Vista) : Vista :=
  let v := { v with nomeInput := [], emailInput := [] }
  let v := { v with userIdInput := [] }
  let v := { v with isEditing := false, currentUserId := none }
  let v := { v with
    btnSubmitHtml :=
      "<span class=\"btn-icon\">➕</span><span class=\"btn-text\">Criar Usuário</span>".toList,
    btnCancelDisplay := "none".toList }
  hideMessage (clearErrors v)

/-- `cancelEdit()`. -/
def cancelEdit (v : Vista) : Vista :=
  showMessage "Edição cancelada".toList "warning".toList (clearForm v)

/-- `editUser(id, nome, email)`. -/
def editUser (id : Nat) (nome email : Str) (v : Vista) : Vista :=
  let v := { v with userIdInput := decimal id, nomeInput := nome, emailInput := email }
  let v := { v with isEditing := true, currentUserId := some id }
  let v := { v with
    btnSubmitHtml :=
      "<span class=\"btn-icon\">💾</span><span class=\"btn-text\">Atualizar Usuário</span>".toList,
    btnCancelDisplay := "flex".toList }
  showMessage ("Editando usuário: ".toList ++ nome) "warning".toList v

/-- `showModal()`. -/
def showModal (v : Vista) : Vista :=
  { v with modalDisplay := "block".toList, bodyOverflow := "hidden".toList }

/-- `closeModal()`. -/
def closeModal (v : Vista) : Vista :=
  { v with modalDisplay := "none".toList, bodyOverflow := "auto".toList, pendingDeleteId := none }

/-- `deleteUser(id, userName)`. -/
def deleteUser (id : Nat) (userName : Str) (v : Vista) : Vista :=
  let v := { v with pendingDeleteId := some id }
  let v := { v with confirmMessage :=
    "Tem certeza que deseja excluir o usuário \"".toList ++ userName ++
      "\"? Esta ação não pode ser desfeita.".toList }
  showModal v

/-- `!this.pendingDeleteId`: `null` and `0` are falsy. -/
def semPendente : Option Nat → Bool
  | none => true
  | some n => n == 0

/-- The message of the error that reaches the `catch` block of
`confirmDeleteUser` and `handleFormSubmit`, or `none` when the request
succeeded: `throw new Error(result.message || 'Erro ' + response.status)` when
`!response.ok`, `throw new Error(result.message)` when `!result.success`. -/
def erroDoFetch : Fetch → Option Str
  | .lancou m => some m
  | .resposta ok status success message =>
    if !ok then some (message.getD ("Erro ".toList ++ decimal status))
    else if success then none
    else some (message.getD [])

/-- `confirmDeleteUser()`, with the outcome of its `fetch`. -/
def confirmDeleteUser (f : Fetch) (v : Vista) : Vista :=
  if semPendente v.pendingDeleteId then v
  else
    let v := { v with pedidos := v.pedidos ++
      [⟨"DELETE".toList,
        apiUrl ++ "/usuarios/".toList ++ decimal (v.pendingDeleteId.getD 0), none⟩] }
    let v :=
      match erroDoFetch f with
      | none => loadUsersInicio (showMessage "✅ Usuário excluído com sucesso!".toList
          "success".toList v)
      | some m => showMessage ("Erro ao excluir usuário: ".toList ++ m) "error".toList v
    let v := closeModal v
    { v with pendingDeleteId := none }

/-- `isValidEmail(email)`: the same regular expression as the server's. -/
def isValidEmail (email : Str) : Bool := emailRegex.test email

/-- The validation block of `handleFormSubmit` on the trimmed name and the
trimmed, lowercased email: the view with the field errors shown, and
`isValid`. -/
def validarFormulario (nome email : Str) (v : Vista) : Vista × Bool :=
  let isValid := true
  let (v, isValid) :=
    if nome.isEmpty || jsLength nome < 2 then
      (showError .nome "Nome deve ter pelo menos 2 caracteres".toList v, false)
    else (v, isValid)
  let (v, isValid) :=
    if email.isEmpty then (showError .email "Email é obrigatório".toList v, false)
    else if !(isValidEmail email) then
      (showError .email "Email deve ser válido".toList v, false)
    else (v, isValid)
  (v, isValid)

/-- The `catch` block of `handleFormSubmit`. -/
def submitCatch (m : Str) (v : Vista) : Vista :=
  if inclui "Email já cadastrado".toList m || inclui "Email já está em uso".toList m then
    showMessage "Email já está em uso por outro usuário".toList "error".toList
      (showError .email "Este email já está cadastrado".toList v)
  else showMessage ("Erro: ".toList ++ m) "error".toList v

/-- `handleFormSubmit(event)`, with the outcome of its `fetch`. -/
def handleFormSubmit (env : Amb) (f : Fetch) (v : Vista) : Vista :=
  let userId := v.userIdInput
  let nome := trim v.nomeInput
  let email := env.toLowerCase (trim v.emailInput)
  let v := clearErrors v
  let (v, isValid) := validarFormulario nome email v
  if !isValid then
    showMessage "Por favor, corrija os erros no formulário".toList "error".toList v
  else
    let url := apiUrl ++ "/usuarios".toList
    let (url, method) :=
      if v.isEditing then (url ++ "/".toList ++ userId, "PUT".toList) else (url, "POST".toList)
    let v := { v with pedidos := v.pedidos ++ [⟨method, url, some (nome, email)⟩] }
    match erroDoFetch f with
    | none =>
      let v := showMessage
        (if v.isEditing then "✅ Usuário atualizado com sucesso!".toList
          else "✅ Usuário criado com sucesso!".toList) "success".toList v
      loadUsersInicio (clearForm v)
    | some m => submitCatch m v

/-- The client accepts the raw form values: `isValid` at the end of the
validation block of `handleFormSubmit`. -/
def clienteAceita (env : Amb) (nomeRaw emailRaw : Str) (v : Vista) : Bool :=
  (validarFormulario (trim nomeRaw) (env.toLowerCase (trim emailRaw)) (clearErrors v)).2

/-- The payload `{ nome, email }` that the client sends for the raw form
values. -/
def payloadCliente (env : Amb) (nomeRaw emailRaw : Str) : Str × Str :=
  (trim nomeRaw, env.toLowerCase (trim emailRaw))

/-- Modelled from the spec: `index.html` is not among the sources; the page
starts in create mode with an empty form, no banner text and the modal closed.
The fields of `UserManager` are as its constructor sets them. -/
def vistaInicial : Vista :=
  { isEditing := false, currentUserId := none, pendingDeleteId := none,
    userIdInput := [], nomeInput := [], emailInput := [], nomeError := [], emailError := [],
    nomeInputError := false, emailInputError := false, messageText := [], messageClass := [],
    messageDisplay := [], btnSubmitHtml := [], btnCancelDisplay := "none".toList,
    loadingDisplay := [], modalDisplay := [], bodyOverflow := [], confirmMessage := [],
    timeouts := 0, pedidos := [] }

def respostaOk : Fetch := .resposta true 200 true (some "Usuário removido com sucesso".toList)

/-- The initial view with the form filled with a valid name and email. -/
def vistaPreenchida : Vista :=
  { vistaInicial with nomeInput := "Ana".toList, emailInput := "ana@x.com".toList }

/-- The pending id is `null` or the id of a user: ids are generated by
`AUTO_INCREMENT` from 1 (`db.js`) and `deleteUser` is called from the delete
button of a listed row, so a pending id is never `0`. -/
def pendenteValido (v : Vista) : Prop := v.pendingDeleteId ≠ some 0

instance (v : Vista) : Decidable (pendenteValido v) := by
  unfold pendenteValido; infer_instance

/-- The user actions and their completions that change the view state. -/
inductive Evento
  | submeter (f : Fetch)
  | cancelar
  | editar (id : Nat) (nome email : Str)
  | excluir (id : Nat) (userName : Str)
  | confirmar (f : Fetch)
  | fecharModal
  | ocultarMensagem

/-- The method that each event runs. -/
def passo (env : Amb) : Evento → Vista → Vista
  | .submeter f => handleFormSubmit env f
  | .cancelar => cancelEdit
  | .editar id nome email => editUser id nome email
  | .excluir id userName => deleteUser id userName
  | .confirmar f => confirmDeleteUser f
  | .fecharModal => closeModal
  | .ocultarMensagem => hideMessage

/-- The delete button of a row passes the id of that row, which is positive. -/
def eventoValido : Evento → Prop
  | .excluir id _ => 0 < id
  | _ => True

/-! ## Theorems -/

namespace Regex

theorem anulavel_iff (r : Regex) : anulavel r = true ↔ Lang r [] := by
  induction r with
  | nada => simp [anulavel, Lang]
  | vazio => simp [anulavel, Lang]
  | classe p => simp [anulavel, Lang]
  | ou r s ihr ihs => simp [anulavel, Lang, ihr, ihs]
  | seq r s ihr ihs =>
    simp only [anulavel, Lang, Bool.and_eq_true, ihr, ihs]
    constructor
    · rintro ⟨h1, h2⟩
      exact ⟨[], [], rfl, h1, h2⟩
    · rintro ⟨u, v, huv, h1, h2⟩
      have h := List.append_eq_nil.mp huv.symm
      rw [h.1] at h1
      rw [h.2] at h2
      exact ⟨h1, h2⟩
  | estrela r _ =>
    simp only [anulavel, Lang, true_iff]
    exact ⟨[], rfl, by simp⟩

theorem estrela_cons (r : Regex) (c : Char) (s : Str) :
    Lang (estrela r) (c :: s) ↔ ∃ u v, s = u ++ v ∧ Lang r (c :: u) ∧ Lang (estrela r) v := by
  constructor
  · rintro ⟨L, hL, hall⟩
    induction L with
    | nil => simp at hL
    | cons w L ih =>
      cases w with
      | nil =>
        apply ih
        · simpa using hL
        · intro u hu
          exact hall u (List.mem_cons_of_mem _ hu)
      | cons d w =>
        simp only [List.flatten_cons, List.cons_append, List.cons.injEq] at hL
        obtain ⟨hd, hs⟩ := hL
        subst hd
        exact ⟨w, L.flatten, hs, hall _ (List.mem_cons_self _ _),
          L, rfl, fun u hu => hall u (List.mem_cons_of_mem _ hu)⟩
  · rintro ⟨u, v, hs, hu, L, hv, hall⟩
    refine ⟨(c :: u) :: L, ?_, ?_⟩
    · simp [hs, hv]
    · intro w hw
      rcases List.mem_cons.mp hw with h | h
      · rw [h]; exact hu
      · exact hall w h

theorem deriv_iff (r : Regex) (c : Char) (s : Str) : Lang (deriv c r) s ↔ Lang r (c :: s) := by
  induction r generalizing s with
  | nada => simp [deriv, Lang]
  | vazio => simp [deriv, Lang]
  | classe p =>
    simp only [deriv, Lang]
    by_cases hp : p c = true
    · simp only [hp, if_true, Lang]
      constructor
      · intro h
        exact ⟨c, by rw [h], hp⟩
      · rintro ⟨d, hd, _⟩
        simp only [List.cons.injEq] at hd
        exact hd.2
    · simp only [hp, Lang, false_iff]
      rintro ⟨d, hd, hpd⟩
      simp only [List.cons.injEq] at hd
      rw [← hd.1] at hpd
      exact hp hpd
  | ou r t ihr iht => simp [deriv, Lang, ihr, iht]
  | seq r t ihr iht =>
    have key : Lang (seq r t) (c :: s) ↔
        (Lang r [] ∧ Lang t (c :: s)) ∨ ∃ u v, s = u ++ v ∧ Lang r (c :: u) ∧ Lang t v := by
      simp only [Lang]
      constructor
      · rintro ⟨u, v, huv, h1, h2⟩
        cases u with
        | nil =>
          left
          simp only [List.nil_append] at huv
          rw [huv]
          exact ⟨h1, h2⟩
        | cons d u =>
          right
          simp only [List.cons_append, List.cons.injEq] at huv
          obtain ⟨hd, hs⟩ := huv
          subst hd
          exact ⟨u, v, hs, h1, h2⟩
      · rintro (⟨h1, h2⟩ | ⟨u, v, hs, h1, h2⟩)
        · exact ⟨[], c :: s, rfl, h1, h2⟩
        · exact ⟨c :: u, v, by simp [hs], h1, h2⟩
    rw [key]
    simp only [deriv]
    by_cases hn : anulavel r = true
    · simp only [hn, if_true, Lang, ihr, iht]
      rw [← anulavel_iff]
      simp only [hn, true_and]
      exact or_comm
    · simp only [hn, Lang, ihr]
      rw [← anulavel_iff]
      simp [hn]
  | estrela r ihr =>
    rw [estrela_cons]
    simp only [deriv, Lang, ihr]

theorem test_iff (r : Regex) (s : Str) : test r s = true ↔ Lang r s := by
  induction s generalizing r with
  | nil => simpa [test] using anulavel_iff r
  | cons c s ih => rw [test, ih, deriv_iff]

theorem mais_classe_iff (p : Char → Bool) (s : Str) :
    Lang (mais (classe p)) s ↔ s ≠ [] ∧ ∀ c ∈ s, p c = true := by
  induction s with
  | nil =>
    simp only [mais, Lang, ne_eq, not_true_eq_false, false_and, iff_false]
    rintro ⟨u, v, huv, ⟨c, hc, _⟩, _⟩
    rw [hc] at huv
    simp at huv
  | cons d s ih =>
    cases s with
    | nil =>
      simp only [mais, Lang]
      constructor
      · rintro ⟨u, v, huv, ⟨c, hc, hp⟩, _⟩
        rw [hc] at huv
        simp only [List.singleton_append, List.cons.injEq] at huv
        rw [huv.1]
        simp [hp]
      · rintro ⟨_, h⟩
        exact ⟨[d], [], rfl, ⟨d, rfl, h d (List.mem_singleton_self d)⟩, [], rfl, by simp⟩
    | cons e s =>
      have ih1 := ih
      simp only [mais, Lang] at ih1 ⊢
      constructor
      · rintro ⟨u, v, huv, ⟨c, hc, hp⟩, L, hv, hall⟩
        rw [hc] at huv
        simp only [List.singleton_append, List.cons.injEq] at huv
        obtain ⟨hd, hs⟩ := huv
        subst hd
        refine ⟨by simp, ?_⟩
        intro x hx
        rcases List.mem_cons.mp hx with h | h
        · rw [h]; exact hp
        · rw [hs, hv] at h
          obtain ⟨w, hw, hxw⟩ := List.mem_flatten.mp h
          obtain ⟨y, hy, hpy⟩ := hall w hw
          rw [hy] at hxw
          rw [List.mem_singleton.mp hxw]
          exact hpy
      · rintro ⟨_, h⟩
        refine ⟨[d], e :: s, rfl, ⟨d, rfl, h d (List.mem_cons_self _ _)⟩, ?_⟩
        refine ⟨(e :: s).map (fun x => [x]), ?_, ?_⟩
        · clear ih ih1 h
          induction (e :: s) with
          | nil => rfl
          | cons a l ihl => simp [← ihl]
        · intro u hu
          obtain ⟨x, hx, hxu⟩ := List.mem_map.mp hu
          exact ⟨x, hxu.symm, h x (List.mem_cons_of_mem _ hx)⟩

end Regex



theorem Regex.lit_iff (c : Char) (s : Str) : Regex.Lang (Regex.lit c) s ↔ s = [c] := by
  simp only [Regex.lit, Regex.Lang, beq_iff_eq]
  constructor
  · rintro ⟨d, hd, hdc⟩
    rw [hd, hdc]
  · intro h
    exact ⟨c, h, rfl⟩

theorem naoEspacoNemArroba_iff (c : Char) :
    naoEspacoNemArroba c = true ↔ isWhiteSpace c = false ∧ c ≠ '@' := by
  simp [naoEspacoNemArroba]

theorem validarEmail_iff (s : Str) : validarEmail s = true ↔ PadraoEmail s := by
  unfold validarEmail PadraoEmail emailRegex
  rw [Regex.test_iff]
  simp only [Regex.Lang.eq_5, Regex.mais_classe_iff, Regex.lit_iff, naoEspacoNemArroba_iff]
  constructor
  · rintro ⟨l, v1, h1, ⟨hl, hlc⟩, a, v2, h2, ha, d, v3, h3, ⟨hd, hdc⟩, p, t, h4, hp, ht, htc⟩
    refine ⟨l, d, t, ?_, hl, hd, ht, ?_⟩
    · rw [h1, h2, h3, h4, ha, hp]
      simp
    · intro c hc
      simp only [List.mem_append] at hc
      rcases hc with (hc | hc) | hc
      · exact hlc c hc
      · exact hdc c hc
      · exact htc c hc
  · rintro ⟨l, d, t, hs, hl, hd, ht, hall⟩
    refine ⟨l, '@' :: (d ++ '.' :: t), by simp [hs], ⟨hl, fun c hc => hall c (by simp [hc])⟩,
      ['@'], d ++ '.' :: t, by simp, rfl, d, '.' :: t, rfl,
      ⟨hd, fun c hc => hall c (by simp [hc])⟩, ['.'], t, rfl, rfl, ht,
      fun c hc => hall c (by simp [hc])⟩

theorem erroNome_ne_erroEmail : erroNome ≠ erroEmail := by decide

theorem nome_ruim_iff (nome : Option Str) :
    (!(truthy nome) || decide (jsLength (trim (nome.getD [])) < 2)) = true ↔
      (nome = none ∨ ∃ s, nome = some s ∧ jsLength (trim s) < 2) := by
  cases nome with
  | none => simp [truthy]
  | some s =>
    cases s with
    | nil => simp [truthy, trim, jsLength, List.rdropWhile]
    | cons c t => simp [truthy]

theorem email_ruim_iff (email : Option Str) :
    (!(truthy email) || !(validarEmail (email.getD []))) = true ↔
      (email = none ∨ ∃ s, email = some s ∧ ¬ PadraoEmail s) := by
  cases email with
  | none => simp [truthy]
  | some s =>
    cases s with
    | nil =>
      have h : validarEmail [] = false := by decide
      have h2 : ¬ PadraoEmail [] := by
        rw [← validarEmail_iff, h]; simp
      simp [truthy, h2]
    | cons c t =>
      simp [truthy, ← validarEmail_iff]

/-- **C1.** `validarUsuario(nome, email)`, for string-or-missing arguments: the
name violation is in the returned list exactly when `nome` is missing or has
fewer than 2 characters (UTF-16 code units, as `length` counts them) after
trimming; the email violation is in it exactly when `email` is missing or does
not have the form `local@domain.tld`; the list is both violations, name first,
exactly when both fields are bad, and is empty exactly when both are valid. -/
theorem validarUsuario_violacoes (nome email : Option Str) :
    (erroNome ∈ validarUsuario nome email ↔
      (nome = none ∨ ∃ s, nome = some s ∧ jsLength (trim s) < 2)) ∧
    (erroEmail ∈ validarUsuario nome email ↔
      (email = none ∨ ∃ s, email = some s ∧ ¬ PadraoEmail s)) ∧
    (validarUsuario nome email = [erroNome, erroEmail] ↔
      (nome = none ∨ ∃ s, nome = some s ∧ jsLength (trim s) < 2) ∧
      (email = none ∨ ∃ s, email = some s ∧ ¬ PadraoEmail s)) ∧
    (validarUsuario nome email = [] ↔
      (∃ s, nome = some s ∧ 2 ≤ jsLength (trim s)) ∧ (∃ s, email = some s ∧ PadraoEmail s)) := by
  have hne := erroNome_ne_erroEmail
  have hn := nome_ruim_iff nome
  have he := email_ruim_iff email
  have hbn : (∃ s, nome = some s ∧ 2 ≤ jsLength (trim s)) ↔
      ¬ (nome = none ∨ ∃ s, nome = some s ∧ jsLength (trim s) < 2) := by
    cases nome with
    | none => simp
    | some s => simp
  have hbe : (∃ s, email = some s ∧ PadraoEmail s) ↔
      ¬ (email = none ∨ ∃ s, email = some s ∧ ¬ PadraoEmail s) := by
    cases email with
    | none => simp
    | some s => simp
  rw [hbn, hbe, ← hn, ← he]
  unfold validarUsuario
  by_cases h1 : (!(truthy nome) || decide (jsLength (trim (nome.getD [])) < 2)) = true <;>
  by_cases h2 : (!(truthy email) || !(validarEmail (email.getD []))) = true <;>
  simp [h1, h2, hne, hne.symm]



theorem ofNat_digito (k : Nat) (hk : k < 10) : EhDecimal (Char.ofNat (48 + k)) ∧
    valorDigito (Char.ofNat (48 + k)) = some k := by
  unfold EhDecimal
  interval_cases k <;> decide

theorem valorDigitos_snoc (radix : Nat) (ds : Str) (c : Char) :
    valorDigitos radix (ds ++ [c]) = valorDigitos radix ds * radix + (valorDigito c).getD 0 := by
  simp [valorDigitos, List.foldl_append]

theorem digitosAux_spec (fuel : Nat) : ∀ (n : Nat) (acc : Str), n < fuel →
    ∃ ds : Str, digitosAux fuel n acc = ds ++ acc ∧ ds ≠ [] ∧ (∀ c ∈ ds, EhDecimal c) ∧
      valorDigitos 10 ds = n := by
  induction fuel with
  | zero => intro n acc h; omega
  | succ fuel ih =>
    intro n acc h
    have hd := ofNat_digito (n % 10) (Nat.mod_lt _ (by decide))
    unfold digitosAux
    by_cases h0 : n / 10 = 0
    · refine ⟨[Char.ofNat (48 + n % 10)], by simp [h0], by simp, ?_, ?_⟩
      · intro c hc
        rw [List.mem_singleton.mp hc]
        exact hd.1
      · simp only [valorDigitos, List.foldl, hd.2, Option.getD_some]
        omega
    · have hlt : n / 10 < fuel := by omega
      obtain ⟨ds, h1, _, h3, h4⟩ := ih (n / 10) (Char.ofNat (48 + n % 10) :: acc) hlt
      refine ⟨ds ++ [Char.ofNat (48 + n % 10)], by simp [h0, h1], by simp, ?_, ?_⟩
      · intro c hc
        rcases List.mem_append.mp hc with h | h
        · exact h3 c h
        · rw [List.mem_singleton.mp h]
          exact hd.1
      · rw [valorDigitos_snoc, h4, hd.2, Option.getD_some]
        omega

theorem decimal_spec (n : Nat) :
    decimal n ≠ [] ∧ (∀ c ∈ decimal n, EhDecimal c) ∧ valorDigitos 10 (decimal n) = n := by
  obtain ⟨ds, h1, h2, h3, h4⟩ := digitosAux_spec (n + 1) n [] (Nat.lt_succ_self n)
  have h : decimal n = ds := by simp [decimal, h1]
  rw [h]
  exact ⟨h2, h3, h4⟩

theorem EhDecimal.naoEspaco {c : Char} (h : EhDecimal c) : isWhiteSpace c = false := by
  unfold EhDecimal at h
  simp only [isWhiteSpace, Bool.or_eq_false_iff, Bool.and_eq_false_iff, beq_eq_false_iff_ne,
    decide_eq_false_iff_not]
  omega

theorem EhDecimal.digito10 {c : Char} (h : EhDecimal c) : ehDigito 10 c = true := by
  unfold EhDecimal at h
  have : valorDigito c = some (c.toNat - 48) := by simp [valorDigito, h.1, h.2]
  simp only [ehDigito, this, decide_eq_true_eq]
  omega

theorem EhDecimal.ne_of_toNat {c d : Char} (h : EhDecimal c) (hd : ¬ EhDecimal d) : c ≠ d := by
  intro hcd
  rw [hcd] at h
  exact hd h

theorem parseInt_digitos_resto (ds rest : Str) (hne : ds ≠ []) (hall : ∀ c ∈ ds, EhDecimal c)
    (hrest : ∀ c, rest.head? = some c → ehDigito 10 c = false)
    (hx : ds = ['0'] → ∀ c, rest.head? = some c → c ≠ 'x' ∧ c ≠ 'X') :
    parseInt (ds ++ rest) = some ((valorDigitos 10 ds : Nat) : Int) := by
  cases ds with
  | nil => exact absurd rfl hne
  | cons c t =>
    have hc : EhDecimal c := hall c (List.mem_cons_self _ _)
    have h1 : (c :: t ++ rest).dropWhile isWhiteSpace = c :: (t ++ rest) := by
      simp [List.dropWhile, hc.naoEspaco]
    have hm : c ≠ '-' := hc.ne_of_toNat (by unfold EhDecimal; decide)
    have hp : c ≠ '+' := hc.ne_of_toNat (by unfold EhDecimal; decide)
    have h2 : tiraSinal (c :: (t ++ rest)) = (1, c :: (t ++ rest)) := by
      simp [tiraSinal, hm, hp]
    have h3 : tiraHex (c :: (t ++ rest)) = (10, c :: (t ++ rest)) := by
      cases t with
      | nil =>
        cases rest with
        | nil => rfl
        | cons d r =>
          by_cases hc0 : c = '0'
          · have := hx (by rw [hc0]) d rfl
            simp [tiraHex, this.1, this.2]
          · simp [tiraHex, hc0]
      | cons d t =>
        have hd : EhDecimal d := hall d (by simp)
        have hx1 : d ≠ 'x' := hd.ne_of_toNat (by unfold EhDecimal; decide)
        have hx2 : d ≠ 'X' := hd.ne_of_toNat (by unfold EhDecimal; decide)
        simp [tiraHex, hx1, hx2]
    have h4 : (c :: (t ++ rest)).takeWhile (ehDigito 10) = c :: t := by
      have hr : rest.takeWhile (ehDigito 10) = [] := by
        cases rest with
        | nil => rfl
        | cons d r => simp [List.takeWhile, hrest d rfl]
      have : (c :: t ++ rest).takeWhile (ehDigito 10) =
          (c :: t) ++ rest.takeWhile (ehDigito 10) :=
        List.takeWhile_append_of_pos (fun x hx => (hall x hx).digito10)
      rw [hr, List.append_nil] at this
      exact this
    simp only [parseInt, h1, h2, h3, h4]
    simp

theorem parseInt_digitos (ds : Str) (hne : ds ≠ []) (hall : ∀ c ∈ ds, EhDecimal c) :
    parseInt ds = some ((valorDigitos 10 ds : Nat) : Int) := by
  have := parseInt_digitos_resto ds [] hne hall (by simp) (by simp)
  rwa [List.append_nil] at this

theorem parseInt_decimal (n : Nat) : parseInt (decimal n) = some (n : Int) := by
  obtain ⟨h1, h2, h3⟩ := decimal_spec n
  rw [parseInt_digitos _ h1 h2, h3]

/-! ### Validation of well-formed payloads -/

theorem validarEmail_nil : validarEmail [] = false := by decide

theorem validarUsuario_valido (nome email : Str) (hn : 2 ≤ jsLength (trim nome))
    (he : validarEmail email = true) : validarUsuario (some nome) (some email) = [] := by
  have h1 : truthy (some nome) = true := by
    cases nome with
    | nil => simp [trim, jsLength, List.rdropWhile] at hn
    | cons c t => rfl
  have h2 : truthy (some email) = true := by
    cases email with
    | nil => rw [validarEmail_nil] at he; cases he
    | cons c t => rfl
  have h3 : ¬ jsLength (trim nome) < 2 := by omega
  simp [validarUsuario, h1, h2, h3, he]

/-! ### The store -/

theorem insert_ok (falha : Option DbError) (agora : Nat) (db db1 : Db) (nome email : Str)
    (insertId : Nat) (h : insert falha agora db nome email = .ok (insertId, db1)) :
    insertId = db.autoInc ∧
      db1 = ⟨db.rows ++ [⟨db.autoInc, nome, email, agora, agora⟩], db.autoInc + 1⟩ ∧
      ∀ u ∈ db.rows, u.email ≠ email := by
  unfold insert at h
  cases falha with
  | some e => simp at h
  | none =>
    by_cases hd : db.rows.any (fun u => decide (u.email = email)) = true
    · simp [hd] at h
    · simp only [hd] at h
      simp only [Bool.false_eq_true, if_false, Except.ok.injEq, Prod.mk.injEq] at h
      refine ⟨h.1.symm, h.2.symm, ?_⟩
      intro u hu hue
      apply hd
      rw [List.any_eq_true]
      exact ⟨u, hu, by simp [hue]⟩

theorem filter_id_unico (rows : List Usuario) (u : Usuario)
    (hnd : (rows.map (fun v => v.id)).Nodup) (hu : u ∈ rows) :
    rows.filter (fun v => decide ((v.id : Int) = (u.id : Int))) = [u] := by
  induction rows with
  | nil => cases hu
  | cons w rows ih =>
    simp only [List.map_cons, List.nodup_cons, List.mem_map, not_exists, not_and] at hnd
    rcases List.mem_cons.mp hu with h | h
    · subst h
      have : rows.filter (fun v => decide ((v.id : Int) = (u.id : Int))) = [] := by
        rw [List.filter_eq_nil_iff]
        intro v hv
        simp only [decide_eq_true_eq, Nat.cast_inj]
        exact hnd.1 v hv
      rw [List.filter_cons_of_pos (by simp), this]
    · have hne : ¬ ((w.id : Int) = (u.id : Int)) := by
        simp only [Nat.cast_inj]
        exact fun hw => hnd.1 u h hw.symm
      rw [List.filter_cons_of_neg (by simpa using hne), ih hnd.2 h]

theorem filter_id_ausente (rows : List Usuario) (k : Nat) (h : ∀ u ∈ rows, u.id ≠ k) :
    rows.filter (fun u => decide ((u.id : Int) = (k : Int))) = [] := by
  rw [List.filter_eq_nil_iff]
  intro u hu
  simp only [decide_eq_true_eq, Nat.cast_inj]
  exact h u hu

/-- **C2.** For a store that satisfies the table constraints and a payload with a
name of at least 2 characters after trimming and an email of the form
`local@domain.tld`, if the `INSERT` succeeds then `POST /usuarios` answers 201
with the generated id (positive and not the id of any earlier row), and a
following `GET /usuarios/:id` with that id, whose lookup does not fault, answers
200 with the row whose `nome` is the trimmed name and whose `email` is the
trimmed, lowercased email. -/
theorem criar_depois_buscar (env : Amb) (falhas falhasGet : Nat → Option DbError) (db db1 : Db)
    (nome email : Str) (insertId : Nat) (hwf : db.wf)
    (hn : 2 ≤ jsLength (trim nome)) (he : PadraoEmail email)
    (hins : insert (falhas 0) env.agora db (trim nome) (env.toLowerCase (trim email)) =
      .ok (insertId, db1))
    (hget : falhasGet 0 = none) :
    (postUsuarios env falhas db (some nome) (some email)).res.status = 201 ∧
    campo "data" (postUsuarios env falhas db (some nome) (some email)).res.body =
      some (.novo insertId (trim nome) (env.toLowerCase (trim email))) ∧
    (postUsuarios env falhas db (some nome) (some email)).db = db1 ∧
    0 < insertId ∧ (∀ u ∈ db.rows, u.id ≠ insertId) ∧
    ∃ u : Usuario, u.id = insertId ∧ u.nome = trim nome ∧
      u.email = env.toLowerCase (trim email) ∧
      (getUsuarioPorId falhasGet (postUsuarios env falhas db (some nome) (some email)).db
        (decimal insertId)).res =
        ⟨200, [("success", .bool true),
          ("message", .texto "Usuário encontrado com sucesso".toList), ("data", .usuario u)]⟩ := by
  have hv := validarUsuario_valido nome email hn ((validarEmail_iff email).mpr he)
  obtain ⟨hid, hdb1, _⟩ := insert_ok _ _ _ _ _ _ _ hins
  have hpost : postUsuarios env falhas db (some nome) (some email) =
      ⟨⟨201, [("success", .bool true), ("message", .texto "Usuário criado com sucesso".toList),
          ("data", .novo insertId (trim nome) (env.toLowerCase (trim email)))]⟩, db1,
        [.insert (trim nome) (env.toLowerCase (trim email))]⟩ := by
    simp only [postUsuarios, hv, List.length_nil, gt_iff_lt, lt_self_iff_false, if_false,
      Option.getD_some, hins]
  obtain ⟨h1, hrows, _, _⟩ := hwf
  have hfresh : ∀ u ∈ db.rows, u.id ≠ insertId := by
    intro u hu
    have := (hrows u hu).2
    omega
  rw [hpost]
  refine ⟨rfl, by simp [campo, List.lookup], rfl, by omega, hfresh,
    ⟨insertId, trim nome, env.toLowerCase (trim email), env.agora, env.agora⟩, rfl, rfl, rfl, ?_⟩
  have hpos : ¬ ((insertId : Int) ≤ 0) := by omega
  have hsel : selectPorId (falhasGet 0) db1 (insertId : Int) =
      .ok [⟨insertId, trim nome, env.toLowerCase (trim email), env.agora, env.agora⟩] := by
    rw [hget, hdb1, ← hid]
    simp only [selectPorId, List.filter_append]
    rw [filter_id_ausente db.rows insertId hfresh]
    simp
  simp only [getUsuarioPorId, parseInt_decimal, hpos, if_false, hsel]

theorem criar_depois_buscar_witness :
    dbVazio.wf ∧ 2 ≤ jsLength (trim " Ana ".toList) ∧ PadraoEmail "Ana@X.com".toList ∧
    (postUsuarios ambProducao semFalhas dbVazio (some " Ana ".toList)
      (some "Ana@X.com".toList)).res.status = 201 ∧
    campo "data" (postUsuarios ambProducao semFalhas dbVazio (some " Ana ".toList)
      (some "Ana@X.com".toList)).res.body =
      some (.novo (1 : Nat) (trim " Ana ".toList) (ambProducao.toLowerCase (trim "Ana@X.com".toList))) :=
  have he : PadraoEmail "Ana@X.com".toList := (validarEmail_iff _).mp (by decide)
  have h := criar_depois_buscar ambProducao semFalhas semFalhas dbVazio
    ⟨[⟨1, "Ana".toList, "ana@x.com".toList, 1000, 1000⟩], 2⟩ " Ana ".toList "Ana@X.com".toList 1
    (by decide) (by decide) he rfl rfl
  ⟨by decide, by decide, he, h.1, h.2.1⟩

theorem parseInt_decimal_resto (n : Nat) (hn : 0 < n) (rest : Str)
    (hrest : ∀ c, rest.head? = some c → ehDigito 10 c = false) :
    parseInt (decimal n ++ rest) = some (n : Int) := by
  obtain ⟨h1, h2, h3⟩ := decimal_spec n
  rw [parseInt_digitos_resto _ _ h1 h2 hrest, h3]
  intro h0
  rw [h0] at h3
  have : valorDigitos 10 ['0'] = 0 := by decide
  omega

/-! ### Validation comes before trimming of the email -/

theorem validarEmail_sem_espaco (e : Str) (h : validarEmail e = true) :
    ∀ c ∈ e, isWhiteSpace c = false := by
  obtain ⟨l, d, t, hs, _, _, _, hall⟩ := (validarEmail_iff e).mp h
  intro c hc
  rw [hs] at hc
  simp only [List.mem_append, List.mem_singleton] at hc
  rcases hc with (((hc | hc) | hc) | hc) | hc
  · exact (hall c (by simp [hc])).1
  · rw [hc]; decide
  · exact (hall c (by simp [hc])).1
  · rw [hc]; decide
  · exact (hall c (by simp [hc])).1

theorem trim_eq_self (e : Str) (h : ∀ c ∈ e, isWhiteSpace c = false) : trim e = e := by
  have h1 : e.dropWhile isWhiteSpace = e := by
    cases e with
    | nil => rfl
    | cons c t => simp [List.dropWhile, h c (List.mem_cons_self _ _)]
  unfold trim
  rw [h1, List.rdropWhile_eq_self_iff]
  intro hne
  simp [h _ (List.getLast_mem hne)]

/-- An email accepted by the server is never changed by the `trim()` applied to
it afterwards: an email with surrounding white space is always refused. -/
theorem post_email_nao_aparado (env : Amb) (falhas : Nat → Option DbError) (db : Db)
    (nome : Option Str) (email : Str) (h : trim email ≠ email) :
    (postUsuarios env falhas db nome (some email)).res.status = 400 ∧
      (postUsuarios env falhas db nome (some email)).db = db := by
  have hv : validarEmail email = false := by
    cases hve : validarEmail email with
    | false => rfl
    | true => exact absurd (trim_eq_self email (validarEmail_sem_espaco email hve)) h
  have : erroEmail ∈ validarUsuario nome (some email) := by
    simp [validarUsuario, hv]
  have hlen : (validarUsuario nome (some email)).length > 0 := List.length_pos_of_mem this
  simp [postUsuarios, hlen]

/-- **C3.** On the empty store, `POST /usuarios` with `nome = "Ana"` and
`email = " Ana@X.com "` (which matches the pattern once trimmed, and whose
normal form is in no row) is answered 400 with the email violation, and nothing
is sent to the store: the email is validated before it is trimmed. -/
theorem post_email_com_espacos :
    validarEmail (trim " Ana@X.com ".toList) = true ∧
    lowerAscii (trim " Ana@X.com ".toList) = "ana@x.com".toList ∧
    validarUsuario (some "Ana".toList) (some (trim " Ana@X.com ".toList)) = [] ∧
    postUsuarios ambProducao semFalhas dbVazio (some "Ana".toList) (some " Ana@X.com ".toList) =
      ⟨⟨400, corpoDadosInvalidos [erroEmail]⟩, dbVazio, []⟩ := by
  decide

/-! ### `PUT /usuarios/:id` -/

/-- **C4, as stated, fails.** Store with the single row 1; `PUT /usuarios/999`
with the too-short name `"A"` is answered 400, not 404. -/
theorem put_corpo_invalido_antes_da_busca :
    (∀ u ∈ dbAna.rows, u.id ≠ 999) ∧
    (putUsuario ambProducao semFalhas dbAna "999".toList (some "A".toList)
      (some "ana@x.com".toList)).res.status = 400 ∧
    ¬ (putUsuario ambProducao semFalhas dbAna "999".toList (some "A".toList)
      (some "ana@x.com".toList)).res.status = 404 := by
  decide

/-- **C4, amended.** For a positive id that is in no row and a lookup that does
not fault: `PUT /usuarios/:id` answers 404 when the body passes validation, and
answers 400 with the violations, before any store access, when it does not. -/
theorem put_id_ausente (env : Amb) (falhas : Nat → Option DbError) (db : Db) (id : Nat)
    (nome email : Option Str) (hid : 0 < id) (habs : ∀ u ∈ db.rows, u.id ≠ id)
    (hf : falhas 0 = none) :
    (validarUsuario nome email = [] →
      putUsuario env falhas db (decimal id) nome email =
        ⟨⟨404, corpoNaoEncontrado⟩, db, [.selectPorId id]⟩) ∧
    (validarUsuario nome email ≠ [] →
      putUsuario env falhas db (decimal id) nome email =
        ⟨⟨400, corpoDadosInvalidos (validarUsuario nome email)⟩, db, []⟩) := by
  have hpos : ¬ ((id : Int) ≤ 0) := by omega
  constructor
  · intro hv
    have hsel : selectPorId (falhas 0) db (id : Int) = .ok [] := by
      rw [hf]
      simp only [selectPorId]
      rw [filter_id_ausente db.rows id habs]
    simp only [putUsuario, parseInt_decimal, hpos, if_false, hv, List.length_nil, gt_iff_lt,
      lt_self_iff_false, hsel]
  · intro hv
    have hlen : (validarUsuario nome email).length > 0 := List.length_pos.mpr hv
    simp only [putUsuario, parseInt_decimal, hpos, if_false, hlen, if_true]

theorem put_id_ausente_witness :
    (putUsuario ambProducao semFalhas dbAna (decimal 999) (some "Bia".toList)
        (some "bia@x.com".toList) = ⟨⟨404, corpoNaoEncontrado⟩, dbAna, [.selectPorId 999]⟩) ∧
    (putUsuario ambProducao semFalhas dbAna (decimal 999) (some "A".toList)
        (some "ana@x.com".toList) = ⟨⟨400, corpoDadosInvalidos [erroNome]⟩, dbAna, []⟩) :=
  ⟨(put_id_ausente ambProducao semFalhas dbAna 999 (some "Bia".toList)
      (some "bia@x.com".toList) (by decide) (by decide) rfl).1 (by decide),
   (put_id_ausente ambProducao semFalhas dbAna 999 (some "A".toList)
      (some "ana@x.com".toList) (by decide) (by decide) rfl).2 (by decide)⟩

/-! ### The `:id` guard -/

/-- **C5.** `"12abc"` and `"1.5"` are not decimal notations of a positive
integer, yet on the store with the single row 1 `GET /usuarios/12abc` is not
answered 400: it looks up id 12 and answers 404; and `GET /usuarios/1.5` looks
up id 1 and answers 200 with row 1.  The guard meant to refuse an id that is
not a valid number checks only the digits that `parseInt` reads. -/
theorem get_id_prefixo_numerico :
    getUsuarioPorId semFalhas dbAna "12abc".toList =
      ⟨⟨404, corpoNaoEncontrado⟩, dbAna, [.selectPorId 12]⟩ ∧
    (getUsuarioPorId semFalhas dbAna "1.5".toList).res.status = 200 ∧
    (getUsuarioPorId semFalhas dbAna "1.5".toList).consultas = [.selectPorId 1] := by
  decide

/-- The same guard is in `PUT` and `DELETE`: `DELETE /usuarios/1.5` removes
user 1. -/
theorem delete_id_prefixo_numerico :
    deleteUsuario semFalhas dbAna "1.5".toList =
      ⟨⟨200, [("success", .bool true), ("message", .texto "Usuário removido com sucesso".toList),
        ("data", .usuario ⟨1, "Ana".toList, "ana@x.com".toList, 900, 900⟩)]⟩,
        ⟨[], 2⟩, [.selectPorId 1, .delete 1]⟩ := by
  decide

/-- What the guard of `GET /usuarios/:id` does: it answers 400 exactly when
`parseInt` of the parameter is `NaN` or not positive, and then sends nothing to
the store (so for `"0"`, `"-3"` and `"abc"`); a parameter that starts with the
decimal notation of a positive integer `n` below 2^53 (where the double that
JavaScript computes is `n` itself), alone or followed by a non-digit and
anything else, passes the guard and is looked up as `n`. -/
theorem get_id_guarda :
    (∀ (falhas : Nat → Option DbError) (db : Db) (idParam : Str),
      ((getUsuarioPorId falhas db idParam).res.status = 400 ↔
        (parseInt idParam = none ∨ ∃ n, parseInt idParam = some n ∧ n ≤ 0)) ∧
      ((getUsuarioPorId falhas db idParam).res.status = 400 →
        getUsuarioPorId falhas db idParam = ⟨⟨400, corpoIdInvalido⟩, db, []⟩) ∧
      (∀ n, parseInt idParam = some n → 0 < n → n < 2 ^ 53 →
        (getUsuarioPorId falhas db idParam).consultas = [.selectPorId n])) ∧
    (∀ (falhas : Nat → Option DbError) (db : Db),
      ∀ p ∈ ["0".toList, "-3".toList, "abc".toList],
        getUsuarioPorId falhas db p = ⟨⟨400, corpoIdInvalido⟩, db, []⟩) ∧
    (∀ (falhas : Nat → Option DbError) (db : Db) (n : Nat) (resto : Str), 0 < n → n < 2 ^ 53 →
      (∀ c, resto.head? = some c → ehDigito 10 c = false) →
        (getUsuarioPorId falhas db (decimal n ++ resto)).consultas = [.selectPorId n]) := by
  have hq : ∀ (falhas : Nat → Option DbError) (db : Db) (idParam : Str) (n : Int),
      parseInt idParam = some n → 0 < n →
        (getUsuarioPorId falhas db idParam).consultas = [.selectPorId n] ∧
        (getUsuarioPorId falhas db idParam).res.status ≠ 400 := by
    intro falhas db idParam n hp hn
    have hpos : ¬ (n ≤ 0) := by omega
    simp only [getUsuarioPorId, hp, hpos, if_false]
    cases hsel : selectPorId (falhas 0) db n with
    | error e => simp
    | ok l =>
      cases l with
      | nil => simp
      | cons u l => simp
  refine ⟨?_, ?_, ?_⟩
  · intro falhas db idParam
    cases hp : parseInt idParam with
    | none => simp [getUsuarioPorId, hp]
    | some n =>
      by_cases hn : n ≤ 0
      · simp [getUsuarioPorId, hp, hn]
      · have h := hq falhas db idParam n hp (by omega)
        refine ⟨?_, ?_, ?_⟩
        · simp [h.2, hn]
        · intro h4
          exact absurd h4 h.2
        · intro m hm _ _
          simp only [Option.some.injEq] at hm
          rw [← hm]
          exact h.1
  · intro falhas db p hp
    simp only [List.mem_cons, List.mem_singleton, List.not_mem_nil, or_false] at hp
    rcases hp with h | h | h <;> subst h
    · have : parseInt "0".toList = some 0 := by decide
      simp only [getUsuarioPorId, this]
      rfl
    · have : parseInt "-3".toList = some (-3) := by decide
      simp only [getUsuarioPorId, this]
      rfl
    · have : parseInt "abc".toList = none := by decide
      simp only [getUsuarioPorId, this]
  · intro falhas db n resto hn _ hresto
    exact (hq falhas db _ n (parseInt_decimal_resto n hn resto hresto)
      (by exact_mod_cast hn)).1

/-! ### `DELETE /usuarios/:id` -/

theorem filter_id_ne (rows : List Usuario) (u : Usuario)
    (hnd : (rows.map (fun v => v.id)).Nodup) (hu : u ∈ rows) :
    rows.filter (fun v => decide ((v.id : Int) ≠ (u.id : Int))) =
      rows.filter (fun v => decide (v ≠ u)) := by
  apply List.filter_congr
  intro v hv
  have hinj := List.inj_on_of_nodup_map hnd
  by_cases hvu : v = u
  · simp [hvu]
  · have : v.id ≠ u.id := fun h => hvu (hinj hv hu h)
    simp [hvu, this]

/-- **C6.** For a store that satisfies the table constraints, a row `u` of it and
requests whose store statements do not fault: the first `DELETE /usuarios/:id`
with `u`'s id answers 200 with `data` equal to `u` and leaves exactly the other
rows, in their order; the second one answers 404 and leaves the store as it
was. -/
theorem delete_duas_vezes (falhas1 falhas2 : Nat → Option DbError) (db : Db) (u : Usuario)
    (hwf : db.wf) (hu : u ∈ db.rows) (hf0 : falhas1 0 = none) (hf1 : falhas1 1 = none)
    (hg0 : falhas2 0 = none) :
    (deleteUsuario falhas1 db (decimal u.id)).res =
      ⟨200, [("success", .bool true), ("message", .texto "Usuário removido com sucesso".toList),
        ("data", .usuario u)]⟩ ∧
    (deleteUsuario falhas1 db (decimal u.id)).db =
      ⟨db.rows.filter (fun v => decide (v ≠ u)), db.autoInc⟩ ∧
    (∀ v, v ∈ (deleteUsuario falhas1 db (decimal u.id)).db.rows ↔ v ∈ db.rows ∧ v ≠ u) ∧
    (deleteUsuario falhas2 (deleteUsuario falhas1 db (decimal u.id)).db (decimal u.id)).res =
      ⟨404, corpoNaoEncontrado⟩ ∧
    (deleteUsuario falhas2 (deleteUsuario falhas1 db (decimal u.id)).db (decimal u.id)).db =
      (deleteUsuario falhas1 db (decimal u.id)).db := by
  obtain ⟨_, hrows, hnd, _⟩ := hwf
  have hpos : ¬ ((u.id : Int) ≤ 0) := by
    have := (hrows u hu).1
    omega
  have hsel : selectPorId (falhas1 0) db (u.id : Int) = .ok [u] := by
    rw [hf0]
    simp only [selectPorId]
    rw [filter_id_unico db.rows u hnd hu]
  have hdel : delete (falhas1 1) db (u.id : Int) =
      .ok ⟨db.rows.filter (fun v => decide (v ≠ u)), db.autoInc⟩ := by
    rw [hf1]
    simp only [delete]
    rw [filter_id_ne db.rows u hnd hu]
  have h1 : deleteUsuario falhas1 db (decimal u.id) =
      ⟨⟨200, [("success", .bool true),
          ("message", .texto "Usuário removido com sucesso".toList), ("data", .usuario u)]⟩,
        ⟨db.rows.filter (fun v => decide (v ≠ u)), db.autoInc⟩,
        [.selectPorId u.id, .delete u.id]⟩ := by
    simp only [deleteUsuario, parseInt_decimal, hpos, if_false, hsel, hdel]
  have hsel2 : selectPorId (falhas2 0)
      ⟨db.rows.filter (fun v => decide (v ≠ u)), db.autoInc⟩ (u.id : Int) = .ok [] := by
    rw [hg0]
    simp only [selectPorId]
    rw [List.filter_filter]
    refine congrArg _ (List.filter_eq_nil_iff.mpr ?_)
    intro v hv
    have hinj := List.inj_on_of_nodup_map hnd
    simp only [ne_eq, decide_not, Bool.and_eq_true, decide_eq_true_eq, Nat.cast_inj,
      Bool.not_eq_true', decide_eq_false_iff_not, not_and, not_not]
    intro hid
    exact hinj hv hu hid
  have h2 : deleteUsuario falhas2 ⟨db.rows.filter (fun v => decide (v ≠ u)), db.autoInc⟩
      (decimal u.id) = ⟨⟨404, corpoNaoEncontrado⟩,
        ⟨db.rows.filter (fun v => decide (v ≠ u)), db.autoInc⟩, [.selectPorId u.id]⟩ := by
    simp only [deleteUsuario, parseInt_decimal, hpos, if_false, hsel2]
  rw [h1]
  simp only [h2]
  refine ⟨trivial, trivial, ?_, trivial, trivial⟩
  intro v
  simp [List.mem_filter]

theorem delete_duas_vezes_witness :
    dbAna.wf ∧
    (deleteUsuario semFalhas dbAna (decimal 1)).res =
      ⟨200, [("success", .bool true), ("message", .texto "Usuário removido com sucesso".toList),
        ("data", .usuario ⟨1, "Ana".toList, "ana@x.com".toList, 900, 900⟩)]⟩ ∧
    (deleteUsuario semFalhas (deleteUsuario semFalhas dbAna (decimal 1)).db (decimal 1)).res =
      ⟨404, corpoNaoEncontrado⟩ :=
  have h := delete_duas_vezes semFalhas semFalhas dbAna
    ⟨1, "Ana".toList, "ana@x.com".toList, 900, 900⟩ (by decide) (by decide) rfl rfl rfl
  ⟨by decide, h.1, h.2.2.2.1⟩

/-! ### Uniqueness of the email -/

/-- A second `POST /usuarios` whose email has the same trimmed, lowercased form
as a stored one, on a store that answers, never adds a row: it is answered 409
when the payload passes validation and 400 when it does not. -/
theorem post_email_repetido (env : Amb) (falhas : Nat → Option DbError) (db : Db)
    (nome email : Option Str) (u : Usuario) (hu : u ∈ db.rows)
    (he : u.email = env.toLowerCase (trim (email.getD []))) (hf : falhas 0 = none) :
    (postUsuarios env falhas db nome email).db = db ∧
    (validarUsuario nome email = [] → (postUsuarios env falhas db nome email).res.status = 409) ∧
    (validarUsuario nome email ≠ [] →
      (postUsuarios env falhas db nome email).res.status = 400) := by
  have hany : db.rows.any (fun v => decide (v.email = env.toLowerCase (trim (email.getD [])))) =
      true := by
    rw [List.any_eq_true]
    exact ⟨u, hu, by simp [he]⟩
  have hins : ∀ n, insert (falhas 0) env.agora db n (env.toLowerCase (trim (email.getD []))) =
      .error (erroDuplicado (env.toLowerCase (trim (email.getD [])))) := by
    intro n
    rw [hf]
    simp only [insert, hany, if_true]
  by_cases hv : validarUsuario nome email = []
  · have hcode : (erroDuplicado (env.toLowerCase (trim (email.getD [])))).code = erDupEntry := rfl
    simp [postUsuarios, hv, hins, hcode]
  · have hlen : (validarUsuario nome email).length > 0 := List.length_pos.mpr hv
    simp [postUsuarios, hlen, hv]

/-- **C7.** On the empty store, `POST /usuarios` with `ana@x.com` succeeds with
201; a second `POST` whose email `" ana@x.com "` differs from it only by
surrounding white space is answered 400 (email violation), not 409; one that
differs only by letter case, `"ANA@X.com"`, is answered 409. The store holds
one row for `ana@x.com` after either. -/
theorem post_duplicado_com_espacos :
    (postUsuarios ambProducao semFalhas dbVazio (some "Ana".toList)
      (some "ana@x.com".toList)).res.status = 201 ∧
    lowerAscii (trim " ana@x.com ".toList) = lowerAscii (trim "ana@x.com".toList) ∧
    postUsuarios ambProducao semFalhas
      (postUsuarios ambProducao semFalhas dbVazio (some "Ana".toList)
        (some "ana@x.com".toList)).db (some "Bob".toList) (some " ana@x.com ".toList) =
      ⟨⟨400, corpoDadosInvalidos [erroEmail]⟩,
        ⟨[⟨1, "Ana".toList, "ana@x.com".toList, 1000, 1000⟩], 2⟩, []⟩ ∧
    (postUsuarios ambProducao semFalhas
      (postUsuarios ambProducao semFalhas dbVazio (some "Ana".toList)
        (some "ana@x.com".toList)).db (some "Bob".toList) (some "ANA@X.com".toList)).res.status =
      409 := by
  decide

/-! ### Shape of the response bodies -/

/-- **C8, as stated, fails.** The bodies of `GET /health` and `GET /` carry no
field `success`, so they are not envelopes. -/
theorem health_e_raiz_sem_success :
    campo "success" (app ambProducao semFalhas dbVazio (.health (.ok true))).res.body = none ∧
    campo "success" (app ambProducao semFalhas dbVazio .raiz).res.body = none ∧
    ehEnvelope (app ambProducao semFalhas dbVazio (.health (.ok true))).res.body = false ∧
    ehEnvelope (app ambProducao semFalhas dbVazio .raiz).res.body = false := by
  decide

theorem corpoErroInterno_envelope (e : DbError) : ehEnvelope (corpoErroInterno e) = true := rfl

theorem corpoDadosInvalidos_envelope (l : List Str) : ehEnvelope (corpoDadosInvalidos l) = true :=
  rfl

theorem putCatch_envelope (e : DbError) : ehEnvelope (putCatch e).body = true := by
  unfold putCatch
  split <;> rfl

theorem getUsuarios_envelope (env : Amb) (falhas : Nat → Option DbError) (db : Db) :
    ehEnvelope (getUsuarios env falhas db).res.body = true := by
  unfold getUsuarios
  split <;> rfl

theorem getUsuarioPorId_envelope (falhas : Nat → Option DbError) (db : Db) (idParam : Str) :
    ehEnvelope (getUsuarioPorId falhas db idParam).res.body = true := by
  unfold getUsuarioPorId
  split
  · rfl
  · split
    · rfl
    · split <;> rfl

theorem postUsuarios_envelope (env : Amb) (falhas : Nat → Option DbError) (db : Db)
    (nome email : Option Str) :
    ehEnvelope (postUsuarios env falhas db nome email).res.body = true := by
  unfold postUsuarios
  simp only
  split
  · rfl
  · split
    · rfl
    · split <;> rfl

theorem putUsuario_envelope (env : Amb) (falhas : Nat → Option DbError) (db : Db)
    (idParam : Str) (nome email : Option Str) :
    ehEnvelope (putUsuario env falhas db idParam nome email).res.body = true := by
  unfold putUsuario
  split
  · rfl
  · split
    · rfl
    · simp only
      split
      · rfl
      · split
        · exact putCatch_envelope _
        · rfl
        · split
          · exact putCatch_envelope _
          · rfl

theorem deleteUsuario_envelope (falhas : Nat → Option DbError) (db : Db) (idParam : Str) :
    ehEnvelope (deleteUsuario falhas db idParam).res.body = true := by
  unfold deleteUsuario
  split
  · rfl
  · split
    · rfl
    · split
      · rfl
      · rfl
      · split <;> rfl

theorem ehEnvelope_temMensagem (b : Corpo) (h : ehEnvelope b = true) : temMensagem b = true := by
  unfold ehEnvelope at h
  unfold temMensagem
  split at h
  · rename_i hm
    rw [hm]
  · cases h

/-- **C8, amended.** Every response body carries a string field `message`. The
bodies of the list, get, create, update and delete handlers, of the unmatched
route and of the error middleware also carry a boolean field `success`; the
bodies of the health check and of the root route carry no field `success`. -/
theorem corpo_das_respostas (env : Amb) (falhas : Nat → Option DbError) (db : Db) (p : Pedido) :
    temMensagem (app env falhas db p).res.body = true ∧
    (rotaInformativa p = false → ehEnvelope (app env falhas db p).res.body = true) ∧
    (rotaInformativa p = true → campo "success" (app env falhas db p).res.body = none) := by
  cases p with
  | health dbStatus =>
    cases dbStatus with
    | ok st => exact ⟨rfl, by simp [rotaInformativa], fun _ => rfl⟩
    | error m => exact ⟨rfl, by simp [rotaInformativa], fun _ => rfl⟩
  | raiz => exact ⟨rfl, by simp [rotaInformativa], fun _ => rfl⟩
  | listar =>
    have h := getUsuarios_envelope env falhas db
    exact ⟨ehEnvelope_temMensagem _ h, fun _ => h, by simp [rotaInformativa]⟩
  | buscar idParam =>
    have h := getUsuarioPorId_envelope falhas db idParam
    exact ⟨ehEnvelope_temMensagem _ h, fun _ => h, by simp [rotaInformativa]⟩
  | criar nome email =>
    have h := postUsuarios_envelope env falhas db nome email
    exact ⟨ehEnvelope_temMensagem _ h, fun _ => h, by simp [rotaInformativa]⟩
  | atualizar idParam nome email =>
    have h := putUsuario_envelope env falhas db idParam nome email
    exact ⟨ehEnvelope_temMensagem _ h, fun _ => h, by simp [rotaInformativa]⟩
  | remover idParam =>
    have h := deleteUsuario_envelope falhas db idParam
    exact ⟨ehEnvelope_temMensagem _ h, fun _ => h, by simp [rotaInformativa]⟩
  | outra originalUrl => exact ⟨rfl, fun _ => rfl, by simp [rotaInformativa]⟩
  | erro errorMessage => exact ⟨rfl, fun _ => rfl, by simp [rotaInformativa]⟩

/-! ### Detail of internal faults -/

/-- The `catch` blocks of the route handlers put `error.message` in the body
whatever `NODE_ENV` is. -/
theorem getUsuarios_falha (env : Amb) (falhas : Nat → Option DbError) (db : Db) (e : DbError)
    (h : falhas 0 = some e) :
    (getUsuarios env falhas db).res =
      ⟨500, [("success", .bool false), ("message", .texto "Erro interno do servidor".toList),
        ("error", .texto e.message)]⟩ := by
  simp [getUsuarios, selectAll, h, corpoErroInterno]

/-- The error-handling middleware shows `error.message` only when `NODE_ENV` is
`development`. -/
theorem erroMiddleware_detalhe (env : Amb) (m : Str) :
    (env.nodeEnv = some "development".toList →
      campo "error" (erroMiddleware env m).body = some (.texto m)) ∧
    (env.nodeEnv ≠ some "development".toList →
      campo "error" (erroMiddleware env m).body = some (.texto "Algo deu errado".toList)) := by
  constructor
  · intro h
    simp only [erroMiddleware, h, if_true]
    rfl
  · intro h
    simp only [erroMiddleware, h, if_false]
    rfl

/-- **C9.** With `NODE_ENV = production`, a store fault during `GET /usuarios`
is answered 500 with the fault's message in the field `error`, so two faults
with different messages give different bodies; the error-handling middleware,
in the same environment, gives the same body for both. -/
theorem erro_500_expoe_detalhe_em_producao :
    ambProducao.nodeEnv = some "production".toList ∧
    (getUsuarios ambProducao (fun _ => some falhaConexao) dbVazio).res =
      ⟨500, [("success", .bool false), ("message", .texto "Erro interno do servidor".toList),
        ("error", .texto "connect ECONNREFUSED 127.0.0.1:3307".toList)]⟩ ∧
    (getUsuarios ambProducao (fun _ => some falhaConexao) dbVazio).res ≠
      (getUsuarios ambProducao (fun _ => some falhaTabela) dbVazio).res ∧
    erroMiddleware ambProducao falhaConexao.message =
      erroMiddleware ambProducao falhaTabela.message ∧
    campo "error" (erroMiddleware ambDesenvolvimento falhaConexao.message).body =
      some (.texto falhaConexao.message) := by
  decide

/-! ### `escapeHtml` -/

theorem replaceAll_append (c : Char) (rep a b : Str) :
    replaceAll c rep (a ++ b) = replaceAll c rep a ++ replaceAll c rep b := by
  simp [replaceAll]

theorem replaceAll_singleton_ne (c x : Char) (rep : Str) (h : x ≠ c) :
    replaceAll c rep [x] = [x] := by
  simp [replaceAll, h]

theorem escapeHtml_append (a b : Str) : escapeHtml (a ++ b) = escapeHtml a ++ escapeHtml b := by
  simp only [escapeHtml, replaceAll_append]

theorem escapeHtml_singleton (c : Char) : escapeHtml [c] = escapeChar c := by
  unfold escapeChar
  by_cases h1 : c = '&'
  · subst h1; decide
  by_cases h2 : c = '<'
  · subst h2; decide
  by_cases h3 : c = '>'
  · subst h3; decide
  by_cases h4 : c = aspas
  · subst h4; decide
  by_cases h5 : c = apostrofo
  · subst h5; decide
  simp only [h1, h2, h3, h4, h5, if_false, escapeHtml]
  rw [replaceAll_singleton_ne _ _ _ h1, replaceAll_singleton_ne _ _ _ h2,
    replaceAll_singleton_ne _ _ _ h3, replaceAll_singleton_ne _ _ _ h4,
    replaceAll_singleton_ne _ _ _ h5]

theorem escapeHtml_cons (c : Char) (t : Str) : escapeHtml (c :: t) = escapeChar c ++ escapeHtml t := by
  have := escapeHtml_append [c] t
  rwa [escapeHtml_singleton] at this

theorem escapeHtml_eq_map (s : Str) : escapeHtml s = (s.map escapeChar).flatten := by
  induction s with
  | nil => rfl
  | cons c t ih => rw [escapeHtml_cons, ih]; simp

/-- The piece produced for one character is either that character, when it is
none of the five special ones, or one of the five entities, which start with
`&` and contain no other special character. -/
theorem escapeChar_forma (c : Char) :
    (escapeChar c = [c] ∧ c ≠ '&' ∧ c ≠ '<' ∧ c ≠ '>' ∧ c ≠ aspas ∧ c ≠ apostrofo) ∨
    (∃ corpo, escapeChar c = '&' :: corpo ∧ escapeChar c ∈ entidades ∧
      '&' ∉ corpo ∧ '<' ∉ corpo ∧ '>' ∉ corpo ∧ aspas ∉ corpo ∧ apostrofo ∉ corpo) := by
  unfold escapeChar
  by_cases h1 : c = '&'
  · right; subst h1; exact ⟨"amp;".toList, by decide⟩
  by_cases h2 : c = '<'
  · right; subst h2; exact ⟨"lt;".toList, by decide⟩
  by_cases h3 : c = '>'
  · right; subst h3; exact ⟨"gt;".toList, by decide⟩
  by_cases h4 : c = aspas
  · right; subst h4; exact ⟨"quot;".toList, by decide⟩
  by_cases h5 : c = apostrofo
  · right; subst h5; exact ⟨"#039;".toList, by decide⟩
  left
  simp only [h1, h2, h3, h4, h5, if_false]
  exact ⟨trivial, h1, h2, h3, h4, h5⟩

theorem mem_escapeChar (c x : Char) (hx : x ∈ escapeChar c) :
    x ≠ '<' ∧ x ≠ '>' ∧ x ≠ aspas ∧ x ≠ apostrofo := by
  rcases escapeChar_forma c with ⟨h, _, h2, h3, h4, h5⟩ | ⟨corpo, h, _, _, h2, h3, h4, h5⟩
  · rw [h, List.mem_singleton] at hx
    subst hx
    exact ⟨h2, h3, h4, h5⟩
  · rw [h, List.mem_cons] at hx
    rcases hx with hx | hx
    · subst hx; decide
    · exact ⟨fun e => h2 (e ▸ hx), fun e => h3 (e ▸ hx), fun e => h4 (e ▸ hx),
        fun e => h5 (e ▸ hx)⟩

theorem append_eq_of_not_mem (x : Char) (corpo : Str) (hx : x ∉ corpo) :
    ∀ (resto pre pos : Str), corpo ++ resto = pre ++ x :: pos →
      ∃ q, pre = corpo ++ q ∧ resto = q ++ x :: pos := by
  induction corpo with
  | nil => intro resto pre pos h; exact ⟨pre, rfl, h⟩
  | cons b corpo ih =>
    intro resto pre pos h
    cases pre with
    | nil =>
      simp only [List.cons_append, List.nil_append, List.cons.injEq] at h
      exact absurd (h.1 ▸ List.mem_cons_self _ _) hx
    | cons p pre =>
      simp only [List.cons_append, List.cons.injEq] at h
      obtain ⟨q, hq1, hq2⟩ := ih (fun hm => hx (List.mem_cons_of_mem _ hm)) resto pre pos h.2
      exact ⟨q, by rw [h.1, hq1]; rfl, hq2⟩

theorem escapeHtml_e_comercial (s : Str) : ∀ (pre pos : Str),
    escapeHtml s = pre ++ '&' :: pos → ∃ e ∈ entidades, e <+: '&' :: pos := by
  induction s with
  | nil =>
    intro pre pos h
    have : escapeHtml [] = [] := rfl
    rw [this] at h
    simp at h
  | cons c t ih =>
    intro pre pos h
    rw [escapeHtml_cons] at h
    rcases escapeChar_forma c with ⟨hc, hne, _⟩ | ⟨corpo, hc, hent, hamp, _⟩
    · rw [hc] at h
      obtain ⟨q, _, hq⟩ := append_eq_of_not_mem '&' [c] (by simpa using Ne.symm hne) _ _ _ h
      exact ih q pos hq
    · cases pre with
      | nil =>
        refine ⟨escapeChar c, hent, escapeHtml t, ?_⟩
        simpa using h
      | cons p pre =>
        rw [hc] at h
        simp only [List.cons_append, List.cons.injEq] at h
        obtain ⟨q, _, hq⟩ := append_eq_of_not_mem '&' corpo hamp _ _ _ h.2
        exact ih q pos hq

/-- **C10.** For every string `s`, `escapeHtml(s)` is the concatenation, character
by character, of the map `&` to `&amp;`, `<` to `&lt;`, `>` to `&gt;`, `"` to
`&quot;`, `'` to `&#039;` and every other character to itself; the result
contains no `<`, `>`, `"` or `'`, and every `&` in it begins one of the five
entities. -/
theorem escapeHtml_correto (s : Str) :
    escapeHtml s = (s.map escapeChar).flatten ∧
    '<' ∉ escapeHtml s ∧ '>' ∉ escapeHtml s ∧ aspas ∉ escapeHtml s ∧
    apostrofo ∉ escapeHtml s ∧
    (∀ pre pos : Str, escapeHtml s = pre ++ '&' :: pos → ∃ e ∈ entidades, e <+: '&' :: pos) := by
  have hmem : ∀ x ∈ escapeHtml s, x ≠ '<' ∧ x ≠ '>' ∧ x ≠ aspas ∧ x ≠ apostrofo := by
    intro x hx
    rw [escapeHtml_eq_map, List.mem_flatten] at hx
    obtain ⟨l, hl, hxl⟩ := hx
    obtain ⟨c, _, hc⟩ := List.mem_map.mp hl
    rw [← hc] at hxl
    exact mem_escapeChar c x hxl
  exact ⟨escapeHtml_eq_map s, fun h => (hmem _ h).1 rfl, fun h => (hmem _ h).2.1 rfl,
    fun h => (hmem _ h).2.2.1 rfl, fun h => (hmem _ h).2.2.2 rfl, escapeHtml_e_comercial s⟩

/-! ### The table constraints are an invariant of the application -/

theorem dbVazio_wf : dbVazio.wf := by decide

theorem insert_wf (falha : Option DbError) (agora : Nat) (db db1 : Db) (nome email : Str)
    (insertId : Nat) (hwf : db.wf) (h : insert falha agora db nome email = .ok (insertId, db1)) :
    db1.wf := by
  obtain ⟨_, hdb1, hfresh⟩ := insert_ok _ _ _ _ _ _ _ h
  obtain ⟨h1, hrows, hids, hemails⟩ := hwf
  rw [hdb1]
  refine ⟨by simp, ?_, ?_, ?_⟩
  · intro u hu
    simp only [List.mem_append, List.mem_singleton] at hu
    rcases hu with hu | hu
    · have := hrows u hu
      simp only
      omega
    · rw [hu]
      simp only
      omega
  · simp only [List.map_append, List.map_cons, List.map_nil]
    rw [List.nodup_append]
    refine ⟨hids, by simp, ?_⟩
    intro a ha hb
    rw [List.mem_singleton] at hb
    obtain ⟨u, hu, hua⟩ := List.mem_map.mp ha
    have := (hrows u hu).2
    omega
  · simp only [List.map_append, List.map_cons, List.map_nil]
    rw [List.nodup_append]
    refine ⟨hemails, by simp, ?_⟩
    intro a ha hb
    rw [List.mem_singleton] at hb
    obtain ⟨u, hu, hua⟩ := List.mem_map.mp ha
    exact hfresh u hu (by rw [hua, hb])

theorem delete_wf (falha : Option DbError) (db db1 : Db) (id : Int) (hwf : db.wf)
    (h : delete falha db id = .ok db1) : db1.wf := by
  unfold delete at h
  cases falha with
  | some e => simp at h
  | none =>
    simp only [Except.ok.injEq] at h
    obtain ⟨h1, hrows, hids, hemails⟩ := hwf
    rw [← h]
    refine ⟨h1, fun u hu => hrows u (List.mem_of_mem_filter hu), ?_, ?_⟩
    · exact hids.sublist ((List.filter_sublist _).map _)
    · exact hemails.sublist ((List.filter_sublist _).map _)

theorem update_wf (falha : Option DbError) (agora : Nat) (db db1 : Db) (nome email : Str)
    (id : Int) (hwf : db.wf) (h : update falha agora db nome email id = .ok db1) : db1.wf := by
  unfold update at h
  cases falha with
  | some e => simp at h
  | none =>
    simp only at h
    split at h
    · cases h
    · rename_i hdup
      simp only [Except.ok.injEq] at h
      obtain ⟨h1, hrows, hids, hemails⟩ := hwf
      have hidf : ∀ u : Usuario, (if (u.id : Int) = id ∧ ¬ (u.nome = nome ∧ u.email = email) then
          (⟨u.id, nome, email, u.created_at, agora⟩ : Usuario) else u).id = u.id := by
        intro u
        split <;> rfl
      rw [← h]
      refine ⟨h1, ?_, ?_, ?_⟩
      · intro u hu
        obtain ⟨v, hv, hvu⟩ := List.mem_map.mp hu
        rw [← hvu, hidf]
        exact hrows v hv
      · simp only [List.map_map]
        have : ((fun v : Usuario => v.id) ∘ fun u : Usuario =>
            if (u.id : Int) = id ∧ ¬ (u.nome = nome ∧ u.email = email) then
              (⟨u.id, nome, email, u.created_at, agora⟩ : Usuario) else u) =
            fun v => v.id := by
          funext u
          exact hidf u
        rw [this]
        exact hids
      · simp only [List.map_map]
        apply List.Nodup.map_on _ (List.Nodup.of_map _ hids)
        intro x hx y hy hxy
        have hinjId := List.inj_on_of_nodup_map hids
        have hinjEmail := List.inj_on_of_nodup_map hemails
        have hval : ∀ u : Usuario, (u.id : Int) = id →
            (if (u.id : Int) = id ∧ ¬ (u.nome = nome ∧ u.email = email) then
              (⟨u.id, nome, email, u.created_at, agora⟩ : Usuario) else u).email = email := by
          intro u hu
          by_cases hs : u.nome = nome ∧ u.email = email
          · simp [hu, hs]
          · simp [hu, hs]
        have hval2 : ∀ u : Usuario, ¬ (u.id : Int) = id →
            (if (u.id : Int) = id ∧ ¬ (u.nome = nome ∧ u.email = email) then
              (⟨u.id, nome, email, u.created_at, agora⟩ : Usuario) else u).email = u.email := by
          intro u hu
          simp [hu]
        have hother : ∀ a ∈ db.rows, ∀ b ∈ db.rows, (a.id : Int) = id → ¬ (b.id : Int) = id →
            b.email ≠ email := by
          intro a ha b hb hai hbi hbe
          apply hdup
          refine ⟨?_, ?_⟩
          · rw [List.any_eq_true]
            exact ⟨a, ha, by simp [hai]⟩
          · rw [List.any_eq_true]
            exact ⟨b, hb, by simp [hbe, hbi]⟩
        simp only [Function.comp] at hxy
        by_cases hxi : (x.id : Int) = id <;> by_cases hyi : (y.id : Int) = id
        · apply hinjId hx hy
          have : (x.id : Int) = (y.id : Int) := by rw [hxi, hyi]
          exact_mod_cast this
        · rw [hval x hxi, hval2 y hyi] at hxy
          exact absurd hxy.symm (hother x hx y hy hxi hyi)
        · rw [hval2 x hxi, hval y hyi] at hxy
          exact absurd hxy (hother y hy x hx hyi hxi)
        · rw [hval2 x hxi, hval2 y hyi] at hxy
          exact hinjEmail hx hy hxy

/-- Every request leaves a store that satisfies the table constraints in a store
that satisfies them. -/
theorem app_preserva_wf (env : Amb) (falhas : Nat → Option DbError) (db : Db) (p : Pedido)
    (hwf : db.wf) : (app env falhas db p).db.wf := by
  cases p with
  | health dbStatus => exact hwf
  | raiz => exact hwf
  | outra originalUrl => exact hwf
  | erro errorMessage => exact hwf
  | listar =>
    simp only [app, getUsuarios]
    split <;> exact hwf
  | buscar idParam =>
    simp only [app, getUsuarioPorId]
    split
    · exact hwf
    · split
      · exact hwf
      · split <;> exact hwf
  | criar nome email =>
    simp only [app, postUsuarios]
    split
    · exact hwf
    · split
      · rename_i hins
        exact insert_wf _ _ _ _ _ _ _ hwf hins
      · split <;> exact hwf
  | atualizar idParam nome email =>
    simp only [app, putUsuario]
    split
    · exact hwf
    · split
      · exact hwf
      · split
        · exact hwf
        · split
          · exact hwf
          · exact hwf
          · split
            · exact hwf
            · rename_i hupd
              exact update_wf _ _ _ _ _ _ _ hwf hupd
  | remover idParam =>
    simp only [app, deleteUsuario]
    split
    · exact hwf
    · split
      · exact hwf
      · split
        · exact hwf
        · exact hwf
        · split
          · exact hwf
          · rename_i hdel
            exact delete_wf _ _ _ _ hwf hdel

/-! ### The delete-confirmation step of the client -/

theorem semPendente_false (o : Option Nat) (h : semPendente o = false) :
    ∃ n, o = some n ∧ n ≠ 0 := by
  cases o with
  | none => simp [semPendente] at h
  | some n =>
    refine ⟨n, rfl, ?_⟩
    simpa [semPendente] using h

theorem confirmDeleteUser_sem (v : Vista) (f : Fetch)
    (h : semPendente v.pendingDeleteId = true) : confirmDeleteUser f v = v := by
  unfold confirmDeleteUser
  rw [if_pos h]

theorem confirmDeleteUser_com (v : Vista) (f : Fetch)
    (h : semPendente v.pendingDeleteId = false) :
    (confirmDeleteUser f v).pendingDeleteId = none ∧
    ∃ resto, (confirmDeleteUser f v).pedidos = v.pedidos ++
      ⟨"DELETE".toList, apiUrl ++ "/usuarios/".toList ++ decimal (v.pendingDeleteId.getD 0),
        none⟩ :: resto := by
  unfold confirmDeleteUser
  rw [if_neg (by simp [h])]
  refine ⟨rfl, ?_⟩
  cases erroDoFetch f with
  | none =>
    exact ⟨[⟨"GET".toList, apiUrl ++ "/usuarios".toList, none⟩], by
      simp [closeModal, loadUsersInicio, showLoading, showMessage]⟩
  | some m =>
    refine ⟨[], ?_⟩
    simp only [closeModal, showMessage]
    split <;> rfl

theorem showMessage_pendente (m t : Str) (v : Vista) :
    (showMessage m t v).pendingDeleteId = v.pendingDeleteId := by
  unfold showMessage
  simp only
  split <;> rfl

theorem showError_pendente (c : CampoForm) (m : Str) (v : Vista) :
    (showError c m v).pendingDeleteId = v.pendingDeleteId := by
  cases c <;> rfl

theorem submitCatch_pendente (m : Str) (v : Vista) :
    (submitCatch m v).pendingDeleteId = v.pendingDeleteId := by
  unfold submitCatch
  split
  · rw [showMessage_pendente, showError_pendente]
  · rw [showMessage_pendente]

theorem validarFormulario_pendente (nome email : Str) (v : Vista) :
    (validarFormulario nome email v).1.pendingDeleteId = v.pendingDeleteId := by
  unfold validarFormulario
  by_cases h1 : (nome.isEmpty || decide (jsLength nome < 2)) = true <;>
    by_cases h3 : email.isEmpty = true <;>
    by_cases h4 : (!(isValidEmail email)) = true <;>
    simp [h1, h3, h4, showError_pendente]

theorem handleFormSubmit_pendente (env : Amb) (f : Fetch) (v : Vista) :
    (handleFormSubmit env f v).pendingDeleteId = v.pendingDeleteId := by
  have hp := validarFormulario_pendente (trim v.nomeInput)
    (env.toLowerCase (trim v.emailInput)) (clearErrors v)
  unfold handleFormSubmit
  cases hr : validarFormulario (trim v.nomeInput) (env.toLowerCase (trim v.emailInput))
    (clearErrors v) with
  | mk w ok =>
    rw [hr] at hp
    have hp2 : w.pendingDeleteId = v.pendingDeleteId := hp
    cases ok with
    | false => simp only [hr, Bool.not_false, if_true, showMessage_pendente, hp2]
    | true =>
      simp only [hr, Bool.not_true, Bool.false_eq_true, if_false]
      cases erroDoFetch f with
      | some m => simp only [submitCatch_pendente, hp2]
      | none =>
        simp only [loadUsersInicio, showLoading, clearForm, hideMessage, clearErrors,
          showMessage_pendente, hp2]

/-- The initial view has no pending id, and every event whose delete button
passes a positive id keeps the pending id `null` or positive: these are the
states the client reaches. -/
theorem passo_pendenteValido (env : Amb) (e : Evento) (v : Vista) (he : eventoValido e)
    (hv : pendenteValido v) : pendenteValido vistaInicial ∧ pendenteValido (passo env e v) := by
  refine ⟨by decide, ?_⟩
  unfold pendenteValido at hv ⊢
  cases e with
  | submeter f =>
    simp only [passo]
    rw [handleFormSubmit_pendente]
    exact hv
  | cancelar =>
    simp only [passo, cancelEdit]
    rw [showMessage_pendente]
    exact hv
  | editar id nome email =>
    simp only [passo, editUser]
    rw [showMessage_pendente]
    exact hv
  | excluir id userName =>
    simp only [passo, deleteUser, showModal, ne_eq, Option.some.injEq]
    have : 0 < id := he
    omega
  | confirmar f =>
    simp only [passo]
    cases hs : semPendente v.pendingDeleteId with
    | true =>
      rw [confirmDeleteUser_sem v f hs]
      exact hv
    | false =>
      rw [(confirmDeleteUser_com v f hs).1]
      simp
  | fecharModal => simp [passo, closeModal]
  | ocultarMensagem => exact hv

/-- **C11.** For every view state whose pending id is `null` or the id of a
user (ids are positive) and every outcome of the delete request, whether it
succeeded, was answered with an error, or threw: `pendingDeleteId` is `null`
after `closeModal` and after `confirmDeleteUser`; when `pendingDeleteId` is
`null`, `confirmDeleteUser` sends no request and changes nothing; when it is an
id, `confirmDeleteUser` sends the `DELETE` request for that id. -/
theorem pendente_nulo_apos_confirmacao (v : Vista) (f : Fetch) (hv : pendenteValido v) :
    (closeModal v).pendingDeleteId = none ∧
    (confirmDeleteUser f v).pendingDeleteId = none ∧
    (v.pendingDeleteId = none →
      confirmDeleteUser f v = v ∧ (confirmDeleteUser f v).pedidos = v.pedidos) ∧
    (∀ n, v.pendingDeleteId = some n →
      ∃ resto, (confirmDeleteUser f v).pedidos = v.pedidos ++
        ⟨"DELETE".toList, apiUrl ++ "/usuarios/".toList ++ decimal n, none⟩ :: resto) := by
  unfold pendenteValido at hv
  refine ⟨rfl, ?_, ?_, ?_⟩
  · cases hs : semPendente v.pendingDeleteId with
    | true =>
      rw [confirmDeleteUser_sem v f hs]
      cases hp : v.pendingDeleteId with
      | none => rfl
      | some n =>
        rw [hp] at hs hv
        have : n = 0 := by simpa [semPendente] using hs
        exact absurd (by rw [this]) hv
    | false => exact (confirmDeleteUser_com v f hs).1
  · intro h
    have hs : semPendente v.pendingDeleteId = true := by rw [h]; rfl
    rw [confirmDeleteUser_sem v f hs]
    exact ⟨rfl, rfl⟩
  · intro n hn
    have hn0 : n ≠ 0 := by
      intro h0
      apply hv
      rw [hn, h0]
    have hs : semPendente v.pendingDeleteId = false := by
      rw [hn]
      simpa [semPendente] using hn0
    have := (confirmDeleteUser_com v f hs).2
    rwa [hn] at this

theorem pendente_nulo_apos_confirmacao_witness :
    pendenteValido (deleteUser 3 "Ana".toList vistaInicial) ∧
    (deleteUser 3 "Ana".toList vistaInicial).pendingDeleteId = some 3 ∧
    (confirmDeleteUser (.lancou "Failed to fetch".toList)
      (deleteUser 3 "Ana".toList vistaInicial)).pendingDeleteId = none ∧
    (closeModal (deleteUser 3 "Ana".toList vistaInicial)).pendingDeleteId = none :=
  have h := pendente_nulo_apos_confirmacao (deleteUser 3 "Ana".toList vistaInicial)
    (.lancou "Failed to fetch".toList) (by decide)
  ⟨by decide, by decide, h.2.1, h.1⟩

/-! ### Client-side and server-side validation -/

theorem trim_trim (s : Str) : trim (trim s) = trim s := by
  unfold trim
  have hpre : (s.dropWhile isWhiteSpace).rdropWhile isWhiteSpace <+: s.dropWhile isWhiteSpace :=
    List.rdropWhile_prefix _ _
  have hd : ((s.dropWhile isWhiteSpace).rdropWhile isWhiteSpace).dropWhile isWhiteSpace =
      (s.dropWhile isWhiteSpace).rdropWhile isWhiteSpace := by
    cases hr : (s.dropWhile isWhiteSpace).rdropWhile isWhiteSpace with
    | nil => rfl
    | cons c r =>
      rw [hr] at hpre
      obtain ⟨t, ht⟩ := hpre
      have hidem := List.dropWhile_idempotent isWhiteSpace s
      rw [← ht] at hidem
      have hc : ¬ isWhiteSpace c = true := by
        intro hc
        have hsuf := List.dropWhile_suffix isWhiteSpace (l := r ++ t)
        have hlen := hsuf.length_le
        have : ((c :: r ++ t).dropWhile isWhiteSpace).length = (c :: r ++ t).length := by
          rw [hidem]
        simp only [List.cons_append, List.dropWhile_cons_of_pos hc, List.length_cons] at this
        omega
      simp [List.dropWhile, hc]
  rw [hd, List.rdropWhile_idempotent]

theorem validarUsuario_nil_iff (n e : Str) :
    validarUsuario (some n) (some e) = [] ↔
      (n ≠ [] ∧ 2 ≤ jsLength (trim n)) ∧ (e ≠ [] ∧ validarEmail e = true) := by
  have h1 : (!(truthy (some n)) || decide (jsLength (trim n) < 2)) = false ↔
      n ≠ [] ∧ 2 ≤ jsLength (trim n) := by
    cases n with
    | nil => simp [truthy]
    | cons c t => simp [truthy]
  have h2 : (!(truthy (some e)) || !(validarEmail e)) = false ↔
      e ≠ [] ∧ validarEmail e = true := by
    cases e with
    | nil => simp [truthy]
    | cons c t => simp [truthy]
  rw [← h1, ← h2]
  unfold validarUsuario
  simp only [Option.getD_some]
  by_cases c1 : (!(truthy (some n)) || decide (jsLength (trim n) < 2)) = true <;>
    by_cases c2 : (!(truthy (some e)) || !(validarEmail e)) = true <;>
    simp [c1, c2]

theorem validarFormulario_aceita (nome email : Str) (v : Vista) :
    (validarFormulario nome email v).2 = true ↔
      (nome ≠ [] ∧ 2 ≤ jsLength nome) ∧ (email ≠ [] ∧ isValidEmail email = true) := by
  have hn : nome.isEmpty = true ↔ nome = [] := List.isEmpty_iff
  have he : email.isEmpty = true ↔ email = [] := List.isEmpty_iff
  unfold validarFormulario
  by_cases h1 : nome = [] <;> by_cases h2 : jsLength nome < 2 <;> by_cases h3 : email = [] <;>
    by_cases h4 : isValidEmail email = true <;> simp [h1, h2, h3, h4]
  all_goals omega

theorem showMessage_pedidos (m t : Str) (v : Vista) : (showMessage m t v).pedidos = v.pedidos := by
  unfold showMessage
  simp only
  split <;> rfl

theorem showError_pedidos (c : CampoForm) (m : Str) (v : Vista) :
    (showError c m v).pedidos = v.pedidos := by
  cases c <;> rfl

theorem submitCatch_pedidos (m : Str) (v : Vista) : (submitCatch m v).pedidos = v.pedidos := by
  unfold submitCatch
  split
  · rw [showMessage_pedidos, showError_pedidos]
  · rw [showMessage_pedidos]

theorem validarFormulario_pedidos (nome email : Str) (v : Vista) :
    (validarFormulario nome email v).1.pedidos = v.pedidos := by
  unfold validarFormulario
  by_cases h1 : (nome.isEmpty || decide (jsLength nome < 2)) = true <;>
    by_cases h3 : email.isEmpty = true <;>
    by_cases h4 : (!(isValidEmail email)) = true <;>
    simp [h1, h3, h4, showError_pedidos]

/-- What `handleFormSubmit` sends: nothing when the validation block refuses
the form, and otherwise first the request whose body is the trimmed name and
the trimmed, lowercased email. -/
theorem handleFormSubmit_pedidos (env : Amb) (f : Fetch) (v : Vista) :
    (clienteAceita env v.nomeInput v.emailInput v = false →
      (handleFormSubmit env f v).pedidos = v.pedidos) ∧
    (clienteAceita env v.nomeInput v.emailInput v = true →
      ∃ metodo url resto, (handleFormSubmit env f v).pedidos = v.pedidos ++
        ⟨metodo, url, some (payloadCliente env v.nomeInput v.emailInput)⟩ :: resto) := by
  have hp := validarFormulario_pedidos (trim v.nomeInput) (env.toLowerCase (trim v.emailInput))
    (clearErrors v)
  unfold clienteAceita payloadCliente
  unfold handleFormSubmit
  cases hr : validarFormulario (trim v.nomeInput) (env.toLowerCase (trim v.emailInput))
    (clearErrors v) with
  | mk w ok =>
    rw [hr] at hp
    simp only at hp
    have hp2 : w.pedidos = v.pedidos := hp
    constructor
    · intro hok
      simp only at hok
      subst hok
      simp only [hr, Bool.not_false, if_true, showMessage_pedidos, hp2]
    · intro hok
      simp only at hok
      subst hok
      simp only [hr, Bool.not_true, Bool.false_eq_true, if_false]
      generalize (if w.isEditing = true then
        (apiUrl ++ "/usuarios".toList ++ "/".toList ++ v.userIdInput, "PUT".toList)
        else (apiUrl ++ "/usuarios".toList, "POST".toList)) = q
      cases erroDoFetch f with
      | some m =>
        simp only [submitCatch_pedidos, hp2]
        exact ⟨q.2, q.1, [], rfl⟩
      | none =>
        refine ⟨q.2, q.1, [⟨"GET".toList, apiUrl ++ "/usuarios".toList, none⟩], ?_⟩
        simp only [loadUsersInicio, showLoading, clearForm, hideMessage, clearErrors,
          showMessage_pedidos, hp2, List.append_assoc, List.singleton_append]

/-- **C12.** For every pair of raw form strings, the validation block of
`handleFormSubmit` accepts the form exactly when the server's `validarUsuario`
returns no violation for the payload the client sends, the trimmed name and the
trimmed, lowercased email; a refused form sends no request, and an accepted one
sends that payload. -/
theorem cliente_aceita_iff_servidor (env : Amb) (nomeRaw emailRaw : Str) (v : Vista)
    (f : Fetch) :
    (clienteAceita env nomeRaw emailRaw v = true ↔
      validarUsuario (some (payloadCliente env nomeRaw emailRaw).1)
        (some (payloadCliente env nomeRaw emailRaw).2) = []) ∧
    (validarUsuario (some (payloadCliente env nomeRaw emailRaw).1)
        (some (payloadCliente env nomeRaw emailRaw).2) ≠ [] →
      (handleFormSubmit env f { v with nomeInput := nomeRaw, emailInput := emailRaw }).pedidos =
        v.pedidos) ∧
    (validarUsuario (some (payloadCliente env nomeRaw emailRaw).1)
        (some (payloadCliente env nomeRaw emailRaw).2) = [] →
      ∃ metodo url resto,
        (handleFormSubmit env f
          { v with nomeInput := nomeRaw, emailInput := emailRaw }).pedidos =
          v.pedidos ++ ⟨metodo, url, some (payloadCliente env nomeRaw emailRaw)⟩ :: resto) := by
  have hiff : ∀ w : Vista, clienteAceita env nomeRaw emailRaw w = true ↔
      validarUsuario (some (payloadCliente env nomeRaw emailRaw).1)
        (some (payloadCliente env nomeRaw emailRaw).2) = [] := by
    intro w
    unfold clienteAceita payloadCliente
    rw [validarFormulario_aceita, validarUsuario_nil_iff, trim_trim]
    rfl
  have hs := handleFormSubmit_pedidos env f { v with nomeInput := nomeRaw, emailInput := emailRaw }
  refine ⟨hiff v, ?_, ?_⟩
  · intro hne
    apply hs.1
    cases hc : clienteAceita env nomeRaw emailRaw
        { v with nomeInput := nomeRaw, emailInput := emailRaw } with
    | false => rfl
    | true => exact absurd ((hiff _).mp hc) hne
  · intro hv
    exact hs.2 ((hiff _).mpr hv)

/-! ### Request bodies whose fields are not strings -/

theorem truthyJs_comoJson (x : Option Str) : truthyJs (comoJson x) = truthy x := by
  cases x with
  | none => rfl
  | some s => cases s <;> rfl

/-- On string-or-missing fields the validation on JSON values is the validation
on strings, and throws nothing. -/
theorem validarUsuarioJs_texto (nome email : Option Str) :
    validarUsuarioJs (comoJson nome) (comoJson email) = .ok (validarUsuario nome email) := by
  have hn : (if !(truthyJs (comoJson nome)) then Except.ok true
      else match chamarTrim "nome".toList (comoJson nome) with
        | .ok t => Except.ok (decide (jsLength t < 2))
        | .error m => Except.error m) =
      (Except.ok (!(truthy nome) || decide (jsLength (trim (nome.getD [])) < 2)) :
        Except Str Bool) := by
    cases nome with
    | none => rfl
    | some s => cases s <;> simp [comoJson, truthyJs, truthy, chamarTrim]
  have he : (if !(truthyJs (comoJson email)) then Except.ok true
      else match validarEmailJs (comoJson email) with
        | .ok b => Except.ok (!b)
        | .error m => Except.error m) =
      (Except.ok (!(truthy email) || !(validarEmail (email.getD []))) : Except Str Bool) := by
    cases email with
    | none => rfl
    | some s =>
      cases s <;> simp [comoJson, truthyJs, truthy, validarEmailJs, paraTexto, validarEmail]
  unfold validarUsuarioJs validarUsuario
  simp only [hn, he]

/-- A truthy `nome` that is not a string makes `validarUsuario` throw. -/
theorem validarUsuarioJs_nome_nao_texto (j : Json) (email : Option Json)
    (ht : truthyJs (some j) = true) (hs : ∀ s, j ≠ .str s) :
    validarUsuarioJs (some j) email = .error "nome.trim is not a function".toList := by
  cases j with
  | nulo => simp [truthyJs] at ht
  | str s => exact absurd rfl (hs s)
  | bool b => simp [validarUsuarioJs, ht, chamarTrim]
  | num n => simp [validarUsuarioJs, ht, chamarTrim]
  | arr l => simp [validarUsuarioJs, truthyJs, chamarTrim]
  | obj l => simp [validarUsuarioJs, truthyJs, chamarTrim]

theorem chamarTrim_comoJson (var s : Str) : chamarTrim var (comoJson (some s)) = .ok (trim s) :=
  rfl

theorem validarUsuario_vazio_some (nome email : Option Str)
    (h : ¬ (validarUsuario nome email).length > 0) :
    ∃ n e, nome = some n ∧ email = some e := by
  cases nome with
  | none =>
    exfalso
    apply h
    unfold validarUsuario
    simp only [truthy, Bool.not_false, Bool.true_or, if_true]
    split <;> simp
  | some n =>
    cases email with
    | none =>
      exfalso
      apply h
      unfold validarUsuario
      simp only [truthy, Bool.not_false, Bool.true_or, if_true, List.length_append]
      simp
    | some e => exact ⟨n, e, rfl, rfl⟩

/-- On string-or-missing fields `POST /usuarios` on JSON values answers as the
handler on strings does. -/
theorem postUsuariosJs_texto (env : Amb) (falhas : Nat → Option DbError) (db : Db)
    (nome email : Option Str) :
    postUsuariosJs env falhas db (comoJson nome) (comoJson email) =
      .respondeu (postUsuarios env falhas db nome email) := by
  unfold postUsuariosJs postUsuarios
  rw [validarUsuarioJs_texto]
  simp only
  by_cases hl : (validarUsuario nome email).length > 0
  · simp only [hl, if_true]
  · obtain ⟨n, e, hn, he⟩ := validarUsuario_vazio_some nome email hl
    subst hn he
    simp only [hl, if_false, chamarTrim_comoJson, Option.getD_some]
    cases insert (falhas 0) env.agora db (trim n) (env.toLowerCase (trim e)) with
    | error err =>
      simp only
      split <;> rfl
    | ok r => rfl

/-- On string-or-missing fields `PUT /usuarios/:id` on JSON values answers as
the handler on strings does. -/
theorem putUsuarioJs_texto (env : Amb) (falhas : Nat → Option DbError) (db : Db)
    (idParam : Str) (nome email : Option Str) :
    putUsuarioJs env falhas db idParam (comoJson nome) (comoJson email) =
      .respondeu (putUsuario env falhas db idParam nome email) := by
  unfold putUsuarioJs putUsuario
  rw [validarUsuarioJs_texto]
  cases parseInt idParam with
  | none => rfl
  | some id =>
    simp only
    by_cases hid : id ≤ 0
    · simp only [hid, if_true]
    · simp only [hid, if_false]
      by_cases hl : (validarUsuario nome email).length > 0
      · simp only [hl, if_true]
      · obtain ⟨n, e, hn, he⟩ := validarUsuario_vazio_some nome email hl
        subst hn he
        simp only [hl, if_false, chamarTrim_comoJson, Option.getD_some]
        cases selectPorId (falhas 0) db id with
        | error err => rfl
        | ok rows =>
          cases rows with
          | nil => rfl
          | cons u rest =>
            simp only
            cases update (falhas 1) env.agora db (trim n) (env.toLowerCase (trim e)) id with
            | error err => rfl
            | ok db1 => rfl

/-- **C13.** With `nome = 123` (or `true`) and a valid email, `validarUsuario`
throws `TypeError: nome.trim is not a function`; the call is outside the `try`
block of the `POST` and `PUT` handlers, so their promise is rejected and they
send no response, in particular no 400.  With a valid name and the email
`["ana@x.com"]`, the validation passes (the array prints as a valid email) and
`email.trim()` throws inside the `try` block: the handlers answer 500. -/
theorem validacao_lanca_com_campo_nao_texto :
    validarUsuarioJs (some (.num 123)) (some (.str "ana@x.com".toList)) =
      .error "nome.trim is not a function".toList ∧
    postUsuariosJs ambProducao semFalhas dbVazio (some (.num 123))
      (some (.str "ana@x.com".toList)) = .rejeitou "nome.trim is not a function".toList ∧
    putUsuarioJs ambProducao semFalhas dbAna "1".toList (some (.bool true))
      (some (.str "ana@x.com".toList)) = .rejeitou "nome.trim is not a function".toList ∧
    (postUsuariosJs ambProducao semFalhas dbVazio (some (.str "Ana".toList))
      (some (.arr [.str "ana@x.com".toList]))).status = some 500 ∧
    (putUsuarioJs ambProducao semFalhas dbAna "1".toList (some (.str "Ana".toList))
      (some (.arr [.str "ana@x.com".toList]))).status = some 500 := by
  refine ⟨rfl, ?_, ?_, ?_, ?_⟩ <;> decide

/-! ### The message banner -/

theorem showMessage_banner (m t : Str) (v : Vista) :
    (showMessage m t v).messageText = m ∧
    (showMessage m t v).messageClass = "message ".toList ++ t ∧
    (showMessage m t v).messageDisplay = v.messageDisplay := by
  unfold showMessage
  simp only
  split <;> exact ⟨rfl, rfl, rfl⟩

/-- `showMessage` never touches `style.display`, so a banner hidden by
`hideMessage` stays hidden when a message is shown. -/
theorem showMessage_apos_hideMessage (m t : Str) (v : Vista) :
    bannerVisivel (showMessage m t (hideMessage v)) = false := by
  unfold bannerVisivel
  rw [(showMessage_banner m t (hideMessage v)).2.2]
  rfl

/-- After `cancelEdit` the banner has the text but is hidden, whatever the
state before. -/
theorem cancelEdit_banner (v : Vista) :
    (cancelEdit v).messageText = "Edição cancelada".toList ∧
    bannerVisivel (cancelEdit v) = false := by
  unfold cancelEdit
  refine ⟨(showMessage_banner _ _ _).1, ?_⟩
  unfold clearForm
  exact showMessage_apos_hideMessage _ _ _

/-- **C14.** From the initial view: after `cancelEdit` the banner has the text
`Edição cancelada` and is hidden (`clearForm` hides it and `showMessage` does
not show it again); after a successful submit of a valid form the banner is
hidden (`clearForm` runs right after `showMessage`); an error banner shown
after an earlier `hideMessage` is hidden. -/
theorem banner_escondido_apos_showMessage :
    (cancelEdit vistaInicial).messageText = "Edição cancelada".toList ∧
    bannerVisivel (cancelEdit vistaInicial) = false ∧
    (handleFormSubmit ambProducao (.resposta true 201 true none) vistaPreenchida).messageText =
      "✅ Usuário criado com sucesso!".toList ∧
    bannerVisivel (handleFormSubmit ambProducao (.resposta true 201 true none) vistaPreenchida) =
      false ∧
    bannerVisivel (showMessage "Erro: falha".toList "error".toList (hideMessage vistaInicial)) =
      false := by
  decide

end UsuariosApi
